import Mathlib

/-!
Verification of the lit-ssr streaming template renderer
(`render-lit-html.ts`: `renderValue`, `renderTemplateResult`, `handleNode`,
`getTemplate`) against its natural-language specification.

The TypeScript async generators are embedded shallowly: a generator run is a
pure function producing a list of `Chunk`s together with the mutable state it
threads (the `RenderInfo.instances` stack; the per-walk cursor `lastOffset`,
`partIndex` and `distributedIndex`) and an optional `Fault` recording a thrown
exception.  Chunks yielded before a throw are kept, matching generator
semantics.  Recursion through dynamic values is bounded by an explicit fuel
parameter (`Fault.outOfFuel` when exhausted); every theorem about a completed
run assumes `fault = none`, which in particular rules out fuel exhaustion.

External collaborators that the repository imports but whose sources are not
part of the renderer (parse5 utilities, the custom-element registry, the
element renderer, directive pre-renderers, reflected attribute names) are
modelled from the specification's description of their interfaces; each such
definition carries a doc comment saying so.
-/

namespace LitSsr

/-- One chunk of the output stream.  Literal flushes, attribute rewrites and
stringified primitives are `text`; the opening marker comment
(`<!--lit-part-->`, or `<!--lit-part <digest>-->` with a digest) and the
closing marker comment that bracket every dispatched value are `openPart`
and `closePart`.  (The source yields the combined open-close placeholder of
a superseded part as a single string; it is represented here as the two
marker chunks, which concatenates to the same text.) -/
inductive Chunk where
  | text (s : String)
  | openPart (digest : Option String)
  | closePart
  deriving DecidableEq, Repr

/-- The wire text of a chunk, per the output format of the source
(`<!--lit-part ${digest}-->`, `<!--lit-part-->`, and the closing marker). -/
def chunkText : Chunk → String
  | .text s => s
  | .openPart none => "<!--lit-part-->"
  | .openPart (some d) => "<!--lit-part " ++ d ++ "-->"
  | .closePart => "<!--/lit-part-->"

/-- Concatenated wire text of a chunk stream. -/
def renderedText (cs : List Chunk) : String :=
  String.join (cs.map chunkText)

/-- Exceptions a render run can raise. -/
inductive Fault where
  | lastOffsetUndefined
  | instanceStackEmpty
  | partIndexMismatch (got expected : Nat)
  | outOfFuel
  deriving DecidableEq, Repr

/-- ECMAScript `String.prototype.substring`: both indices are clamped to
`[0, length]` and swapped when out of order; an absent second index means
end-of-string. -/
def jsSubstring (s : String) (a : Nat) (b : Option Nat) : String :=
  let len := s.length
  let a' := min a len
  let b' := match b with
    | none => len
    | some v => min v len
  (((s.toList).drop (min a' b')).take (max a' b' - min a' b')).asString

/-- JavaScript `String.prototype.endsWith`, via character lists (the
built-in byte-position implementation does not reduce in the kernel). -/
def jsEndsWith (s suffix : String) : Bool :=
  suffix.toList.isSuffixOf s.toList

/-- JavaScript `String.prototype.startsWith`, via character lists. -/
def jsStartsWith (s p : String) : Bool :=
  p.toList.isPrefixOf s.toList

/-- JavaScript `indexOf(c) !== -1`, via character lists. -/
def jsContainsChar (s : String) (c : Char) : Bool :=
  s.toList.contains c

/-- Drop the last `n` characters (for stripping the reserved suffix). -/
def jsDropRight (s : String) (n : Nat) : String :=
  (s.toList.take (s.toList.length - n)).asString

/-- Drop the first `n` characters (JavaScript `slice(n)`). -/
def jsDrop (s : String) (n : Nat) : String :=
  (s.toList.drop n).asString

/-- Stands for lit-html's unique expression marker token (`marker` in
`lit-html/lib/template.js`); its exact text is irrelevant to the renderer,
which only compares comment data against it and substitutes occurrences of
it inside raw attribute values. -/
def markerData : String := "lit-ssr-marker"

/-- A fragment of a raw bound-attribute value: literal text or one occurrence
of the marker token (`attr.value` is the raw string; the source resolves it
with `attr.value.replace(globalMarkerRegex, ...)`, one callback per
occurrence, left to right). -/
inductive AttrChunk where
  | lit (s : String)
  | markerTok
  deriving DecidableEq, Repr

/-- A parse5 attribute together with its source location
(`node.sourceCodeLocation.attrs[attr.name]`). -/
structure Attr where
  name : String
  value : List AttrChunk
  startOffset : Nat
  endOffset : Nat
  deriving DecidableEq, Repr

/-- Source location of a comment or text node. -/
structure CLoc where
  startOffset : Nat
  endOffset : Nat
  deriving DecidableEq, Repr

/-- Source location of an element: the node's span and its start tag's span
(`sourceCodeLocation.startOffset/.endOffset/.startTag.startOffset/
.startTag.endOffset`). -/
structure ELoc where
  startOffset : Nat
  endOffset : Nat
  startTagStart : Nat
  startTagEnd : Nat
  deriving DecidableEq, Repr

mutual
/-- A parse5 tree node with source offsets.  A node's identity (for the
claimed-node set, which the source keys by object reference) is represented
by its start offset, unique per node in a parsed tree. -/
inductive Node where
  | comment (data : String) (loc : CLoc)
  | textN (content : String) (loc : CLoc)
  | element (tagName : String) (attrs : List Attr) (loc : ELoc)
      (children : NodeList)
  deriving DecidableEq, Repr
/-- Children of an element (a separate inductive so that tree recursions are
structural). -/
inductive NodeList where
  | nil
  | cons (n : Node) (ns : NodeList)
  deriving DecidableEq, Repr
end

mutual
/-- A dynamic value, classified the way `renderValue` classifies it:
`TemplateResult`, `undefined`, `null`, the `nothing` sentinel, a repeat
directive (modelled by the chunk stream its pre-renderer produces), a
render-light directive, an array, a class-map directive (modelled by the
class string its pre-renderer returns), or any other primitive (modelled by
its `String(value)` form). -/
inductive Value where
  | template (digest : String) (html : String) (childNodes : Option NodeList)
      (strings : List String) (values : ValueList)
  | undef
  | nul
  | nothingV
  | repeatD (chunks : List Chunk)
  | renderLight
  | arr (items : ValueList)
  | classMap (resolved : String)
  | prim (s : String)
  deriving DecidableEq, Repr
/-- A list of values (a separate inductive so that value recursions are
structural). -/
inductive ValueList where
  | nil
  | cons (v : Value) (vs : ValueList)
  deriving DecidableEq, Repr
end

namespace ValueList

/-- Length of a value list (`result.values.length`). -/
def length : ValueList → Nat
  | .nil => 0
  | .cons _ vs => 1 + vs.length

/-- `values[i]`, with JavaScript's out-of-bounds `undefined`. -/
def getD : ValueList → Nat → Value
  | .nil, _ => .undef
  | .cons v _, 0 => v
  | .cons _ vs, n + 1 => vs.getD n

end ValueList

mutual
/-- JavaScript `String(value)` for the model's value kinds.  Only the
primitive case (`prim`) carries its exact text; the other kinds are given
fixed renderings consistent with JavaScript stringification (arrays join
their elements with commas, `null`/`undefined` elements joining as empty
strings). -/
def Value.toStr : Value → String
  | .template _ _ _ _ _ => "[object Object]"
  | .undef => "undefined"
  | .nul => "null"
  | .nothingV => "[object Object]"
  | .repeatD _ => "[function repeat]"
  | .renderLight => "[function renderLight]"
  | .arr items => ValueList.toStrJoin items
  | .classMap _ => "[function classMap]"
  | .prim s => s
/-- `Array.prototype.join(",")` over stringified elements, with `null` and
`undefined` elements contributing empty strings. -/
def ValueList.toStrJoin : ValueList → String
  | .nil => ""
  | .cons v .nil =>
    match v with
    | .undef => ""
    | .nul => ""
    | _ => v.toStr
  | .cons v (.cons w vs) =>
    (match v with
     | .undef => ""
     | .nul => ""
     | _ => v.toStr) ++ "," ++ ValueList.toStrJoin (.cons w vs)
end

/-- The digest carried by the opening marker: present exactly when the value
is a `TemplateResult` (`<!--lit-part ${value.digest}-->` versus
`<!--lit-part-->`). -/
def templateDigest : Value → Option String
  | .template d _ _ _ _ => some d
  | _ => none

/-- The cached data of one parsed template: the markup string from
`result.getHTML()`, the parsed tree's top-level child list
(`ast.childNodes`, which parse5 leaves absent for some inputs), the
template's literal strings and its dynamic values. -/
structure TemplateData where
  html : String
  childNodes : Option NodeList
  strings : List String
  values : ValueList
  deriving DecidableEq, Repr

/-- Modelled from the spec: a constructed server-side component instance as
the renderer observes it — the chunk stream that `LitElementRenderer
.renderElement` produces for it, the `renderedPartIndex` its
`LitHtmlChildRenderer` reports after slot distribution, and the
`TemplateResult` its `renderLight()` method returns. -/
structure Instance where
  renderOutput : List Chunk
  renderedPartIndex : Int
  lightResult : Value
  deriving DecidableEq, Repr

/-- Modelled from the spec: a registered custom-element constructor.
`construct = none` models a constructor that throws (the construction
fault); `construct = some i` models successful construction of `i`. -/
structure CElem where
  construct : Option Instance

/-- Modelled from the spec: the external collaborators — the component
registry (`customElements.get`), the reflection mapping
(`reflectedAttributeName(tagName, propertyName)`), and lit-html's
`lastAttributeNameRegex` match (group 2: the bound attribute's name,
including its leading sigil, extracted from `result.strings[partIndex]`). -/
structure Env where
  registry : String → Option CElem
  reflected : String → String → Option String
  lastAttrNameProp : String → String

/-- One entry of `RenderInfo.instances`: a tag name plus, once constructed,
the component instance.  The TypeScript array's end (its top) is this list's
head. -/
structure InstEntry where
  tagName : String
  inst : Option Instance
  deriving DecidableEq, Repr

/-- The read-only part of `RenderInfo`: the active slot-projection request
(`slot?.slotName`) and the flattening flag. -/
structure Flags where
  slot : Option (Option String)
  flattened : Bool

/-- Modelled from the spec: the supplied child-content provider
(`ChildRenderer.renderChildren(slotName)`), as the chunk stream it produces
for a requested slot name. -/
abbrev ChildRenderer := Option String → List Chunk

/-- The mutable state of one `renderTemplateResult` walk: the cursor
(`lastOffset`), the value counter (`partIndex`), the slot-distribution
baseline (`distributedIndex`, initially `-1`), the shared instance stack,
and a ghost trace `consumed` recording, in order, each index `i` at which
`result.values[partIndex++]` was executed. -/
structure WalkSt where
  lastOffset : Option Nat
  partIndex : Nat
  distributedIndex : Int
  instances : List InstEntry
  consumed : List Nat
  deriving DecidableEq, Repr

/-- Result of a `renderValue` run: chunks yielded, final instance stack,
and the fault if one was thrown. -/
structure ValRes where
  chunks : List Chunk
  instances : List InstEntry
  fault : Option Fault
  deriving DecidableEq, Repr

/-- Result of a walk step inside `renderTemplateResult`. -/
structure WalkRes where
  chunks : List Chunk
  st : WalkSt
  fault : Option Fault
  deriving DecidableEq, Repr

/-- Result of a whole `renderTemplateResult` run: chunks, final instance
stack, the ghost consumption trace, the final `partIndex`, and the fault if
one was thrown. -/
structure TplRes where
  chunks : List Chunk
  instances : List InstEntry
  consumed : List Nat
  partIndex : Nat
  fault : Option Fault
  deriving DecidableEq, Repr

/-- The per-walk read-only context: the markup, literal strings and values
of the template being walked, the claimed-node set (as start offsets), the
`RenderInfo` flags, and the child-content provider. -/
structure WalkCtx where
  html : String
  strings : List String
  values : ValueList
  claimed : List Nat
  flags : Flags
  cr : Option ChildRenderer

mutual
/-- Modelled from the spec: `depthFirst` of `parse5-utils` — the depth-first
pre-order traversal of a node (the node itself, then its descendants). -/
def depthFirstN : Node → List Node
  | .comment d l => [.comment d l]
  | .textN c l => [.textN c l]
  | .element t a lo cs => .element t a lo cs :: depthFirstL cs
/-- Depth-first pre-order traversal of a node list. -/
def depthFirstL : NodeList → List Node
  | .nil => []
  | .cons n ns => depthFirstN n ++ depthFirstL ns
end

mutual
/-- The `parse5-traverse` call of `renderTemplateResult`'s top-level loop:
`pre` pushes `{tagName}` for each element and `post` pops it, over the whole
subtree, before any chunk of the subtree is produced.  (Both callbacks run
to completion inside the synchronous `traverse` call.) -/
def traverseN : Node → List InstEntry → List InstEntry
  | .comment _ _, st => st
  | .textN _ _, st => st
  | .element t _ _ cs, st =>
    (traverseL cs (⟨t, none⟩ :: st)).tail
/-- `parse5-traverse` over a node list. -/
def traverseL : NodeList → List InstEntry → List InstEntry
  | .nil, st => st
  | .cons n ns, st => traverseL ns (traverseN n st)
end

/-- `getAttr(node, name)` of `parse5-utils`, modelled from the spec: the
raw value string of the named attribute, or `none` when absent.  Marker
occurrences inside a raw value read back as the marker token. -/
def attrChunkText : AttrChunk → String
  | .lit s => s
  | .markerTok => markerData

/-- The raw text of an attribute value. -/
def attrValueText (v : List AttrChunk) : String :=
  String.join (v.map attrChunkText)

/-- `getAttr(node, name)`: looks the attribute up by name. -/
def getAttrN (attrs : List Attr) (name : String) : Option String :=
  (attrs.find? (fun a => a.name = name)).map (fun a => attrValueText a.value)

/-- The hidden count attribute ` __lit-attr="N"` appended after the bound
attributes of a start tag. -/
def countAttrText (n : Nat) : String :=
  " __lit-attr=\"" ++ toString n ++ "\""

/-- `result.values[partIndex++]`: advances `partIndex` and records the index
that was consumed in the ghost trace. -/
def consumeValue (st : WalkSt) : WalkSt :=
  { st with partIndex := st.partIndex + 1, consumed := st.consumed ++ [st.partIndex] }

/-- `flushTo(offset)`: throws when `lastOffset` is `undefined`, otherwise
emits `html.substring(lastOffset, offset)` and sets `lastOffset := offset`
(`offset = none` is the final argument-less `flushTo()`). -/
def flushToC (html : String) (st : WalkSt) (offset : Option Nat) :
    Except Fault (Chunk × WalkSt) :=
  match st.lastOffset with
  | none => .error .lastOffsetUndefined
  | some prev => .ok ⟨.text (jsSubstring html prev offset), { st with lastOffset := offset }⟩

/-- `attr.value.replace(globalMarkerRegex, () => ...)`: each marker
occurrence, left to right, consumes one value and substitutes its class-map
resolution (for a class-map directive) or its `String(value)` form. -/
def substituteAttr (ctx : WalkCtx) : List AttrChunk → WalkSt → String × WalkSt
  | [], st => ("", st)
  | .lit s :: rest, st =>
    let res := substituteAttr ctx rest st
    (s ++ res.1, res.2)
  | .markerTok :: rest, st =>
    let value := ctx.values.getD st.partIndex
    let st1 := consumeValue st
    let piece :=
      match value with
      | .classMap s => s
      | v => v.toStr
    let res := substituteAttr ctx rest st1
    (piece ++ res.1, res.2)

/-- The bound-attribute loop of `handleNode` (`for (const attr of
node.attrs)`): for each attribute whose name ends in the reserved suffix, it
emits the literal span up to the attribute's start, then either the
reflected form of a property binding (the assignment of the value onto the
component instance has no effect on the output and is not modelled further)
or the rewritten plain attribute with markers substituted, then skips the
cursor past the attribute.  Returns the chunks, the updated state, and
`boundAttrsCount`. -/
def processAttrs (env : Env) (ctx : WalkCtx) (tagName : String) :
    List Attr → WalkSt → List Chunk × WalkSt × Nat
  | [], st => ([], st, 0)
  | attr :: rest, st =>
    if jsEndsWith attr.name "$lit$" then
      let preChunk := Chunk.text
        (jsSubstring ctx.html (st.lastOffset.getD 0) (some attr.startOffset))
      if jsStartsWith attr.name "." then
        let propName := jsDrop (env.lastAttrNameProp (ctx.strings.getD st.partIndex "")) 1
        let value := ctx.values.getD st.partIndex
        let st0 := consumeValue st
        let reflChunks :=
          match env.reflected tagName propName with
          | some rn => [Chunk.text (rn ++ "=\"" ++ value.toStr ++ "\"")]
          | none => []
        let st1 := { st0 with lastOffset := some attr.endOffset }
        let res := processAttrs env ctx tagName rest st1
        (preChunk :: reflChunks ++ res.1, res.2.1, res.2.2 + 1)
      else
        let attributeName := jsDropRight attr.name 5
        let sub := substituteAttr ctx attr.value st
        let aChunk := Chunk.text (attributeName ++ "=\"" ++ sub.1 ++ "\"")
        let st1 := { sub.2 with lastOffset := some attr.endOffset }
        let res := processAttrs env ctx tagName rest st1
        (preChunk :: aChunk :: res.1, res.2.1, res.2.2 + 1)
    else
      processAttrs env ctx tagName rest st

/-- `renderInfo.instances[len - 1].instance = instance`: set the instance
on the top stack entry.  (On an empty stack the indexing throws inside the
same try block and is caught, leaving the stack unchanged.) -/
def setTopInst (l : List InstEntry) (j : Instance) : List InstEntry :=
  match l with
  | [] => []
  | e :: rest => { e with inst := some j } :: rest

/-- One step of the walk (`handleNode`), parametrised by the value
dispatcher `rv` (the recursive call into `renderValue`). -/
def handleNode (rv : Value → List InstEntry → ValRes) (env : Env) (ctx : WalkCtx)
    (node : Node) (st : WalkSt) : WalkRes :=
  match node with
  | .comment data loc =>
    if data = markerData then
      match flushToC ctx.html st (some loc.startOffset) with
      | .error f => ⟨[], st, some f⟩
      | .ok (c, st1) =>
        let st2 := { st1 with lastOffset := some loc.endOffset }
        let value := ctx.values.getD st2.partIndex
        let st3 := consumeValue st2
        if (st3.partIndex : Int) ≤ st3.distributedIndex then
          -- already consumed during slot distribution: emit only the part
          -- markers, not the value's rendered output
          ⟨[c, .openPart (templateDigest value), .closePart], st3, none⟩
        else
          let r := rv value st3.instances
          ⟨c :: r.chunks, { st3 with instances := r.instances }, r.fault⟩
    else ⟨[], st, none⟩
  | .textN _ _ => ⟨[], st, none⟩
  | .element tagName attrs loc _children =>
    if ctx.claimed.contains loc.startOffset then
      -- skip the already distributed node
      match flushToC ctx.html st (some loc.startOffset) with
      | .error f => ⟨[], st, some f⟩
      | .ok (c, st1) => ⟨[c], { st1 with lastOffset := some loc.endOffset }, none⟩
    else
      let phase1 : List Chunk × WalkSt × Option Instance × Bool × Option Fault :=
        if tagName = "slot" ∧ ctx.flags.flattened then
          match flushToC ctx.html st (some loc.startTagStart) with
          | .error f => ([], st, none, false, some f)
          | .ok (c, st1) =>
            let slotName := getAttrN attrs "name"
            let crChunks :=
              match ctx.cr with
              | some r => r slotName
              | none => []
            (c :: crChunks, { st1 with lastOffset := some loc.endOffset },
             none, false, none)
        else if jsContainsChar tagName '-' then
          match env.registry tagName with
          | none => ([], st, none, false, none)
          | some celem =>
            match celem.construct with
            | none =>
              -- the constructor threw: the exception is caught and logged
              -- and the local `instance` stays undefined, but `writeTag`
              -- was already set
              ([], st, none, true, none)
            | some i =>
              ([], { st with instances := setTopInst st.instances i },
               some i, true, none)
        else ([], st, none, false, none)
      let chunks1 := phase1.1
      let st1 := phase1.2.1
      let instOpt := phase1.2.2.1
      let writeTag := phase1.2.2.2.1
      match phase1.2.2.2.2 with
      | some f => ⟨chunks1, st1, some f⟩
      | none =>
        let pa := processAttrs env ctx tagName attrs st1
        let attrChunks := pa.1
        let st2 := pa.2.1
        let boundCount := pa.2.2
        let countChunks :=
          if boundCount > 0 then [Chunk.text (countAttrText boundCount)] else []
        let flushStep : Except Fault (List Chunk × WalkSt) :=
          if writeTag then
            match flushToC ctx.html st2 (some loc.startTagEnd) with
            | .error f => .error f
            | .ok (c, st3) => .ok ([c], st3)
          else .ok ([], st2)
        match flushStep with
        | .error f => ⟨chunks1 ++ attrChunks ++ countChunks, st2, some f⟩
        | .ok (tagChunks, st3) =>
          match instOpt with
          | some i =>
            -- stream the nested component render and record the child
            -- renderer's renderedPartIndex as the distributed index
            ⟨chunks1 ++ attrChunks ++ countChunks ++ tagChunks ++ i.renderOutput,
             { st3 with distributedIndex := i.renderedPartIndex }, none⟩
          | none =>
            ⟨chunks1 ++ attrChunks ++ countChunks ++ tagChunks, st3, none⟩

/-- Folds `handleNode` over a pre-order node listing (`for (const child of
depthFirst(node)) yield* handleNode(child)`), stopping at the first fault
but keeping the chunks yielded before it. -/
def walkNodes (rv : Value → List InstEntry → ValRes) (env : Env) (ctx : WalkCtx) :
    List Node → WalkSt → WalkRes
  | [], st => ⟨[], st, none⟩
  | n :: rest, st =>
    let r := handleNode rv env ctx n st
    match r.fault with
    | some f => ⟨r.chunks, r.st, some f⟩
    | none =>
      let r2 := walkNodes rv env ctx rest r.st
      ⟨r.chunks ++ r2.chunks, r2.st, r2.fault⟩

/-- Pushes `{tagName: node.tagName}` when the top-level node is an element
(the top-level loop's unconditional push). -/
def pushIfElement (node : Node) (st : WalkSt) : WalkSt :=
  match node with
  | .element t _ _ _ => { st with instances := ⟨t, none⟩ :: st.instances }
  | _ => st

/-- Pops the entry again on exit from the top-level node (`Array.pop` on an
empty stack is a no-op). -/
def popIfElement (node : Node) (st : WalkSt) : WalkSt :=
  match node with
  | .element _ _ _ _ => { st with instances := st.instances.tail }
  | _ => st

/-- The top-level loop of `renderTemplateResult` over `ast.childNodes`: push
the element entry; in slot-projection mode walk only matching elements (or
bare text nodes for the unnamed slot) and skip the others; otherwise run the
`parse5-traverse` pre/post push-pop pass and then walk the subtree in
pre-order; pop the entry on exit (skipped when a fault aborts the
generator). -/
def topLoopGo (rv : Value → List InstEntry → ValRes) (env : Env) (ctx : WalkCtx) :
    NodeList → WalkSt → WalkRes
  | .nil, st => ⟨[], st, none⟩
  | .cons node rest, st =>
    let st0 := pushIfElement node st
    let r : WalkRes :=
      match ctx.flags.slot with
      | some slotName =>
        match node with
        | .element t a lo cs =>
          if getAttrN a "slot" = slotName then
            let st1 := { st0 with lastOffset := some lo.startOffset }
            let w := walkNodes rv env ctx (depthFirstN (.element t a lo cs)) st1
            match w.fault with
            | some f => ⟨w.chunks, w.st, some f⟩
            | none =>
              match flushToC ctx.html w.st (some lo.endOffset) with
              | .error f => ⟨w.chunks, w.st, some f⟩
              | .ok (c, st2) => ⟨w.chunks ++ [c], st2, none⟩
          else
            ⟨[], { st0 with lastOffset := some lo.endOffset }, none⟩
        | .textN c l =>
          if slotName = none then
            walkNodes rv env ctx (depthFirstN (.textN c l)) st0
          else ⟨[], st0, none⟩
        | .comment _ _ => ⟨[], st0, none⟩
      | none =>
        let st1 := { st0 with instances := traverseN node st0.instances }
        walkNodes rv env ctx (depthFirstN node) st1
    match r.fault with
    | some f => ⟨r.chunks, r.st, some f⟩
    | none =>
      let st' := popIfElement node r.st
      let r2 := topLoopGo rv env ctx rest st'
      ⟨r.chunks ++ r2.chunks, r2.st, r2.fault⟩

/-- One `renderTemplateResult` run, parametrised by the value dispatcher:
an absent top-level child list returns immediately; otherwise the top-level
loop runs from offset 0, then the trailing literal text is flushed and
`partIndex` is checked against `values.length` (a mismatch throws, after
the flush chunk was yielded). -/
def renderTemplateResultGo (rv : Value → List InstEntry → ValRes) (env : Env)
    (td : TemplateData) (cr : Option ChildRenderer) (claimed : List Nat)
    (flags : Flags) (instances : List InstEntry) : TplRes :=
  match td.childNodes with
  | none => ⟨[], instances, [], 0, none⟩
  | some nodes =>
    let ctx : WalkCtx := ⟨td.html, td.strings, td.values, claimed, flags, cr⟩
    let st0 : WalkSt := ⟨some 0, 0, -1, instances, []⟩
    let r := topLoopGo rv env ctx nodes st0
    match r.fault with
    | some f => ⟨r.chunks, r.st.instances, r.st.consumed, r.st.partIndex, some f⟩
    | none =>
      match flushToC td.html r.st none with
      | .error f => ⟨r.chunks, r.st.instances, r.st.consumed, r.st.partIndex, some f⟩
      | .ok (c, st1) =>
        if st1.partIndex = td.values.length then
          ⟨r.chunks ++ [c], st1.instances, st1.consumed, st1.partIndex, none⟩
        else
          ⟨r.chunks ++ [c], st1.instances, st1.consumed, st1.partIndex,
           some (.partIndexMismatch st1.partIndex td.values.length)⟩

/-- `for (const item of value) yield* renderValue(item, ...)`: dispatches
each array element in order, stopping at the first fault. -/
def dispatchList (rv : Value → List InstEntry → ValRes) :
    ValueList → List InstEntry → ValRes
  | .nil, inst => ⟨[], inst, none⟩
  | .cons v vs, inst =>
    let r := rv v inst
    match r.fault with
    | some f => ⟨r.chunks, r.instances, some f⟩
    | none =>
      let rest := dispatchList rv vs r.instances
      ⟨r.chunks ++ rest.chunks, rest.instances, rest.fault⟩

/-- `renderValue`, with fuel bounding the nesting depth of dispatched
values: a `TemplateResult` opens a digest-bearing marker and delegates to the
template walk (with a fresh claimed-node set); every other value opens a bare
marker and then renders nothing (`undefined`, `null`, `nothing`), the repeat
directive's stream, the enclosing instance's `renderLight()` result (reading
the top of the instance stack, which throws on an empty stack), each array
element independently, or the stringified primitive.  The closing marker is
yielded only when no exception aborted the generator. -/
def renderValueF : Nat → Env → Option ChildRenderer → Flags → Value →
    List InstEntry → ValRes
  | 0, _, _, _, _, inst => ⟨[], inst, some .outOfFuel⟩
  | n + 1, env, cr, flags, v, inst =>
    match v with
    | .template digest html childNodes strings values =>
      let r := renderTemplateResultGo
        (fun v' i' => renderValueF n env cr flags v' i') env
        ⟨html, childNodes, strings, values⟩ cr [] flags inst
      match r.fault with
      | some f => ⟨.openPart (some digest) :: r.chunks, r.instances, some f⟩
      | none =>
        ⟨.openPart (some digest) :: r.chunks ++ [.closePart], r.instances, none⟩
    | _ =>
      let body : ValRes :=
        match v with
        | .template _ _ _ _ _ => ⟨[], inst, none⟩
        | .undef => ⟨[], inst, none⟩
        | .nul => ⟨[], inst, none⟩
        | .repeatD cs => ⟨cs, inst, none⟩
        | .renderLight =>
          match inst with
          | [] =>
            -- `renderInfo.instances[len - 1]` is undefined: reading its
            -- `.instance` throws before anything further is yielded
            ⟨[], [], some .instanceStackEmpty⟩
          | entry :: _ =>
            match entry.inst with
            | none => ⟨[], inst, none⟩
            | some i => renderValueF n env cr flags i.lightResult inst
        | .nothingV => ⟨[], inst, none⟩
        | .arr items =>
          dispatchList (fun v' i' => renderValueF n env cr flags v' i') items inst
        | .classMap s => ⟨[.text (Value.toStr (.classMap s))], inst, none⟩
        | .prim s => ⟨[.text s], inst, none⟩
      match body.fault with
      | some f => ⟨.openPart none :: body.chunks, body.instances, some f⟩
      | none => ⟨.openPart none :: body.chunks ++ [.closePart], body.instances, none⟩

/-- `renderTemplateResult` with the concrete dispatcher at a given fuel. -/
def renderTemplateResultF (fuel : Nat) (env : Env) (td : TemplateData)
    (cr : Option ChildRenderer) (claimed : List Nat) (flags : Flags)
    (instances : List InstEntry) : TplRes :=
  renderTemplateResultGo (fun v i => renderValueF fuel env cr flags v i) env
    td cr claimed flags instances

/-- The exported `render` entry point: `renderValue` with an empty instance
stack and no slot request. -/
def renderF (fuel : Nat) (env : Env) (v : Value) (cr : Option ChildRenderer)
    (flattened : Bool) : ValRes :=
  renderValueF fuel env cr ⟨none, flattened⟩ v []

/-! ## Marker balance -/

/-- Runs a bracket-depth counter over a chunk stream starting at depth `d`:
`openPart` increments, `closePart` decrements, and the run fails (`none`)
if the depth would go negative. -/
def depthRun : List Chunk → Nat → Option Nat
  | [], d => some d
  | .text _ :: cs, d => depthRun cs d
  | .openPart _ :: cs, d => depthRun cs (d + 1)
  | .closePart :: _, 0 => none
  | .closePart :: cs, d + 1 => depthRun cs d

/-- A chunk stream is marker-balanced when its opening and closing markers
are equal in number and nest correctly (the depth counter never goes
negative and ends at zero). -/
def MarkerBalanced (l : List Chunk) : Prop := depthRun l 0 = some 0

instance (l : List Chunk) : Decidable (MarkerBalanced l) := by
  unfold MarkerBalanced; infer_instance

/-- Marker-free chunk streams (literal text only). -/
def textOnly (l : List Chunk) : Bool :=
  l.all fun c =>
    match c with
    | .text _ => true
    | _ => false

mutual
/-- Well-formedness of a value: every chunk stream a repeat directive
carries (its pre-renderer's output, an external collaborator) is
marker-balanced, recursively. -/
def balancedValue : Value → Bool
  | .template _ _ _ _ values => balancedValues values
  | .repeatD cs => decide (MarkerBalanced cs)
  | .arr items => balancedValues items
  | _ => true
/-- Well-formedness of a value list. -/
def balancedValues : ValueList → Bool
  | .nil => true
  | .cons v vs => balancedValue v && balancedValues vs
end

/-- Well-formedness of one component instance: its external
`renderElement` stream is marker-balanced and its `renderLight()` result is
well-formed. -/
def InstanceOk (i : Instance) : Prop :=
  MarkerBalanced i.renderOutput ∧ balancedValue i.lightResult = true

/-- Well-formedness of the environment: every registered, constructible
instance is well-formed. -/
def BalancedEnv (env : Env) : Prop :=
  ∀ tag ce i, env.registry tag = some ce → ce.construct = some i → InstanceOk i

/-- Well-formedness of the child-content provider: its streams are
marker-balanced. -/
def BalancedCR (cr : Option ChildRenderer) : Prop :=
  ∀ r s, cr = some r → MarkerBalanced (r s)

/-- Well-formedness of an instance stack: every constructed instance held
in it is well-formed. -/
def BalancedStack (l : List InstEntry) : Prop :=
  ∀ e ∈ l, ∀ i, e.inst = some i → InstanceOk i

/-- The dispatcher contract used in the balance induction: on well-formed
values and stacks, a completed dispatch is marker-balanced, and the
(possibly partial) dispatch leaves the stack well-formed. -/
def RVGood (rv : Value → List InstEntry → ValRes) : Prop :=
  ∀ v inst, balancedValue v = true → BalancedStack inst →
    ((rv v inst).fault = none → MarkerBalanced (rv v inst).chunks)
    ∧ BalancedStack (rv v inst).instances

/-- An environment with nothing registered, no reflected attributes and a
trivial attribute-name extractor (used by concrete instantiations). -/
def emptyEnv : Env := ⟨fun _ => none, fun _ _ => none, fun _ => ""⟩

/-- `st'` extends `st` by consuming a contiguous run of part indices: for
some `k`, the ghost trace grew by exactly `[partIndex, ..., partIndex+k-1]`
and `partIndex` advanced by `k`.  (This is the shape in which every walk
step consumes values.) -/
def ConsumedExt (st st' : WalkSt) : Prop :=
  ∃ k, st'.partIndex = st.partIndex + k
    ∧ st'.consumed = st.consumed ++ List.range' st.partIndex k

/-- The state invariant of every walk step: values are consumed as a
contiguous run, and a defined cursor stays defined (nothing inside the walk
ever sets `lastOffset` back to `undefined`; only the final argument-less
flush does). -/
def WalkInv (st st' : WalkSt) : Prop :=
  ConsumedExt st st' ∧ (st.lastOffset.isSome → st'.lastOffset.isSome)

/-! ## Concrete fixtures -/

/-- Top-level nodes of the C1 witness template `<div><!--marker--></div>`. -/
def c1Nodes : NodeList :=
  .cons (.element "div" [] ⟨0, 19, 0, 5⟩
    (.cons (.comment markerData ⟨5, 13⟩) .nil)) .nil

/-- `<div><!--marker--></div>` with one value. -/
def c1Template : TemplateData :=
  { html := "<div><!--m--></div>"
  , childNodes := some c1Nodes
  , strings := ["<div>", "</div>"]
  , values := .cons (.prim "hi") .nil }

/-- A component instance for the C4 fixture: renders nothing of its own,
reports `renderedPartIndex = 0`, and its `renderLight()` returns the
primitive `"LIGHT"`. -/
def c4Inst : Instance := ⟨[], 0, .prim "LIGHT"⟩

/-- Registry with one custom element, `x-out`, that constructs `c4Inst`. -/
def c4Env : Env :=
  ⟨fun t => if t = "x-out" then some ⟨some c4Inst⟩ else none,
   fun _ _ => none, fun _ => ""⟩

/-- `<x-out><span><!--marker--></span></x-out>` with one value, a
render-light directive sitting inside the nested plain `<span>`. -/
def c4Template : TemplateData :=
  { html := "<x-out><span><!--m--></span></x-out>"
  , childNodes := some (.cons
      (.element "x-out" [] ⟨0, 36, 0, 7⟩
        (.cons (.element "span" [] ⟨7, 28, 7, 13⟩
          (.cons (.comment markerData ⟨13, 21⟩) .nil)) .nil))
      .nil)
  , strings := []
  , values := .cons .renderLight .nil }

/-- `<slot name="s"><!--marker--></slot>tail` with one value, a marker
comment sitting among the slot element's own children. -/
def c5Template : TemplateData :=
  { html := "<slot name=\"s\"><!--m--></slot>tail"
  , childNodes := some (.cons
      (.element "slot" [⟨"name", [.lit "s"], 6, 14⟩] ⟨0, 30, 0, 15⟩
        (.cons (.comment markerData ⟨15, 23⟩) .nil))
      .nil)
  , strings := []
  , values := .cons (.prim "OOPS") .nil }

/-- `<div a$lit$="marker" b="x"></div>`: one bound attribute followed by a
plain (unbound) attribute on the same start tag, with one value. -/
def c7Template : TemplateData :=
  { html := "<div a$lit$=\"_\" b=\"x\"></div>"
  , childNodes := some (.cons
      (.element "div"
        [⟨"a$lit$", [.markerTok], 5, 15⟩, ⟨"b", [.lit "x"], 16, 21⟩]
        ⟨0, 28, 0, 22⟩ .nil)
      .nil)
  , strings := ["<div a=\"", "\"></div>"]
  , values := .cons (.prim "1") .nil }

/-! ## Helper lemmas -/

theorem range'_concat (s m n : Nat) :
    List.range' s m ++ List.range' (s + m) n = List.range' s (m + n) := by
  simp [Nat.add_comm]

theorem consumedExt_refl (st : WalkSt) : ConsumedExt st st :=
  ⟨0, by simp, by simp⟩

theorem consumedExt_trans {s1 s2 s3 : WalkSt} (h1 : ConsumedExt s1 s2)
    (h2 : ConsumedExt s2 s3) : ConsumedExt s1 s3 := by
  obtain ⟨k1, hp1, hc1⟩ := h1
  obtain ⟨k2, hp2, hc2⟩ := h2
  refine ⟨k1 + k2, by omega, ?_⟩
  rw [hc2, hc1, hp1, List.append_assoc, range'_concat]

theorem consumeValue_ext (st : WalkSt) : ConsumedExt st (consumeValue st) :=
  ⟨1, rfl, by simp [consumeValue, List.range'_one]⟩

mutual
theorem traverseN_id : ∀ (n : Node) (st : List InstEntry), traverseN n st = st
  | .comment _ _, _ => rfl
  | .textN _ _, _ => rfl
  | .element t _ _ cs, st => by
    show (traverseL cs (⟨t, none⟩ :: st)).tail = st
    rw [traverseL_id]
    rfl
/-- The `parse5-traverse` pre/post pass pushes and pops symmetrically with
no chunk produced in between, so it has no net effect on the instance
stack. -/
theorem traverseL_id : ∀ (ns : NodeList) (st : List InstEntry), traverseL ns st = st
  | .nil, _ => rfl
  | .cons n ns, st => by
    show traverseL ns (traverseN n st) = st
    rw [traverseN_id, traverseL_id]
end

theorem substituteAttr_inv (ctx : WalkCtx) :
    ∀ (v : List AttrChunk) (st : WalkSt),
      ConsumedExt st (substituteAttr ctx v st).2
      ∧ (substituteAttr ctx v st).2.lastOffset = st.lastOffset
      ∧ (substituteAttr ctx v st).2.instances = st.instances
      ∧ (substituteAttr ctx v st).2.distributedIndex = st.distributedIndex
  | [], st => ⟨consumedExt_refl st, rfl, rfl, rfl⟩
  | .lit s :: rest, st => substituteAttr_inv ctx rest st
  | .markerTok :: rest, st => by
    have ih := substituteAttr_inv ctx rest (consumeValue st)
    exact ⟨consumedExt_trans (consumeValue_ext st) ih.1, ih.2.1, ih.2.2.1, ih.2.2.2⟩

theorem processAttrs_inv (env : Env) (ctx : WalkCtx) (t : String) :
    ∀ (attrs : List Attr) (st : WalkSt),
      ConsumedExt st (processAttrs env ctx t attrs st).2.1
      ∧ (st.lastOffset.isSome = true →
          (processAttrs env ctx t attrs st).2.1.lastOffset.isSome = true)
      ∧ (processAttrs env ctx t attrs st).2.1.instances = st.instances
      ∧ (processAttrs env ctx t attrs st).2.1.distributedIndex = st.distributedIndex
  | [], st => ⟨consumedExt_refl st, fun h => h, rfl, rfl⟩
  | attr :: rest, st => by
    by_cases hb : jsEndsWith attr.name "$lit$" = true
    · by_cases hp : jsStartsWith attr.name "." = true
      · have ih := processAttrs_inv env ctx t rest
          { consumeValue st with lastOffset := some attr.endOffset }
        simp only [processAttrs]
        rw [if_pos hb, if_pos hp]
        refine ⟨?_, fun _ => ih.2.1 rfl, ih.2.2.1, ih.2.2.2⟩
        refine consumedExt_trans (consumeValue_ext st) (consumedExt_trans ?_ ih.1)
        exact ⟨0, by simp, by simp⟩
      · have hsub := substituteAttr_inv ctx attr.value st
        have ih := processAttrs_inv env ctx t rest
          { (substituteAttr ctx attr.value st).2 with
              lastOffset := some attr.endOffset }
        simp only [processAttrs]
        rw [if_pos hb, if_neg hp]
        refine ⟨?_, fun _ => ih.2.1 rfl,
          ih.2.2.1.trans hsub.2.2.1, ih.2.2.2.trans hsub.2.2.2⟩
        refine consumedExt_trans hsub.1 (consumedExt_trans ?_ ih.1)
        exact ⟨0, by simp, by simp⟩
    · have ih := processAttrs_inv env ctx t rest st
      simp only [processAttrs]
      rw [if_neg hb]
      exact ih

theorem processAttrs_count (env : Env) (ctx : WalkCtx) (t : String) :
    ∀ (attrs : List Attr) (st : WalkSt),
      (processAttrs env ctx t attrs st).2.2 =
        attrs.countP (fun a => jsEndsWith a.name "$lit$")
  | [], _ => by simp [processAttrs]
  | attr :: rest, st => by
    by_cases hb : jsEndsWith attr.name "$lit$" = true
    · by_cases hp : jsStartsWith attr.name "." = true
      · simp only [processAttrs]
        rw [if_pos hb, if_pos hp]
        simp only [List.countP_cons, hb, if_true]
        rw [processAttrs_count env ctx t rest]
      · simp only [processAttrs]
        rw [if_pos hb, if_neg hp]
        simp only [List.countP_cons, hb, if_true]
        rw [processAttrs_count env ctx t rest]
    · simp only [processAttrs]
      rw [if_neg hb]
      simp only [List.countP_cons, hb, if_false]
      rw [processAttrs_count env ctx t rest]
      simp [hb]

theorem processAttrs_nobound (env : Env) (ctx : WalkCtx) (t : String) :
    ∀ (attrs : List Attr) (st : WalkSt),
      (∀ a ∈ attrs, jsEndsWith a.name "$lit$" = false) →
      processAttrs env ctx t attrs st = ([], st, 0)
  | [], _, _ => rfl
  | attr :: rest, st, h => by
    have hb : jsEndsWith attr.name "$lit$" = false := h attr (by simp)
    simp only [processAttrs]
    rw [if_neg (by simp [hb])]
    exact processAttrs_nobound env ctx t rest st (fun a ha => h a (by simp [ha]))

theorem consumedExt_consume (st : WalkSt) (lo : Option Nat) :
    ConsumedExt st (consumeValue { st with lastOffset := lo }) :=
  ⟨1, rfl, by simp [consumeValue, List.range']⟩

theorem handleNode_inv (rv : Value → List InstEntry → ValRes) (env : Env)
    (ctx : WalkCtx) (node : Node) (st : WalkSt) :
    WalkInv st (handleNode rv env ctx node st).st := by
  have triv : ∀ s' : WalkSt, s'.partIndex = st.partIndex →
      s'.consumed = st.consumed → s'.lastOffset.isSome = true →
      WalkInv st s' := by
    intro s' h1 h2 h3
    exact ⟨⟨0, by omega, by simp [h2]⟩, fun _ => h3⟩
  cases node with
  | textN c loc => exact ⟨consumedExt_refl st, fun h => h⟩
  | comment data loc =>
    simp only [handleNode]
    split
    · cases hoff : st.lastOffset with
      | none => simp [flushToC, hoff]; exact ⟨consumedExt_refl st, fun h => by simp [hoff] at h⟩
      | some prev =>
        simp only [flushToC, hoff]
        split
        · exact ⟨consumedExt_consume st _, fun _ => by simp [consumeValue]⟩
        · exact ⟨consumedExt_consume st _, fun _ => by simp [consumeValue]⟩
    · exact ⟨consumedExt_refl st, fun h => h⟩
  | element tagName attrs loc children =>
    simp only [handleNode]
    split
    · -- claimed node
      cases hoff : st.lastOffset with
      | none => simp [flushToC, hoff]; exact ⟨consumedExt_refl st, fun h => by simp [hoff] at h⟩
      | some prev =>
        simp only [flushToC, hoff]
        exact triv _ rfl rfl (by simp)
    · -- not claimed
      by_cases hslot : tagName = "slot" ∧ ctx.flags.flattened = true
      · rw [if_pos hslot]
        cases hoff : st.lastOffset with
        | none =>
          simp only [flushToC, hoff]
          exact ⟨consumedExt_refl st, fun h => by simp [hoff] at h⟩
        | some prev =>
          simp only [flushToC, hoff]
          have hinv := processAttrs_inv env ctx tagName attrs
            { st with lastOffset := some loc.endOffset }
          exact ⟨consumedExt_trans ⟨0, rfl, by simp⟩ hinv.1,
            fun _ => hinv.2.1 rfl⟩
      · rw [if_neg hslot]
        by_cases hdash : jsContainsChar tagName '-' = true
        · rw [if_pos hdash]
          cases hreg : env.registry tagName with
          | none =>
            simp only [hreg]
            have hinv := processAttrs_inv env ctx tagName attrs st
            exact ⟨hinv.1, hinv.2.1⟩
          | some celem =>
            simp only [hreg]
            cases hcon : celem.construct with
            | none =>
              simp only [hcon]
              have hinv := processAttrs_inv env ctx tagName attrs st
              cases hoff2 : (processAttrs env ctx tagName attrs st).2.1.lastOffset with
              | none =>
                simp only [flushToC, hoff2]
                exact ⟨hinv.1, hinv.2.1⟩
              | some off =>
                simp only [flushToC, hoff2]
                exact ⟨consumedExt_trans hinv.1 ⟨0, rfl, by simp⟩,
                  fun _ => by simp⟩
            | some i =>
              simp only [hcon]
              have hinv := processAttrs_inv env ctx tagName attrs
                { st with instances := setTopInst st.instances i }
              cases hoff2 : (processAttrs env ctx tagName attrs
                  { st with instances :=
                      setTopInst st.instances i }).2.1.lastOffset with
              | none =>
                simp only [flushToC, hoff2]
                exact ⟨consumedExt_trans ⟨0, rfl, by simp⟩ hinv.1,
                  fun h => hinv.2.1 h⟩
              | some off =>
                simp only [flushToC, hoff2]
                exact ⟨consumedExt_trans (consumedExt_trans ⟨0, rfl, by simp⟩ hinv.1)
                    ⟨0, rfl, by simp⟩,
                  fun _ => by simp⟩
        · rw [if_neg hdash]
          have hinv := processAttrs_inv env ctx tagName attrs st
          exact ⟨hinv.1, hinv.2.1⟩

theorem walkInv_refl (st : WalkSt) : WalkInv st st :=
  ⟨consumedExt_refl st, fun h => h⟩

theorem walkInv_trans {s1 s2 s3 : WalkSt} (a : WalkInv s1 s2) (b : WalkInv s2 s3) :
    WalkInv s1 s3 :=
  ⟨consumedExt_trans a.1 b.1, fun h => b.2 (a.2 h)⟩

theorem walkInv_instances (st : WalkSt) (l : List InstEntry) :
    WalkInv st { st with instances := l } :=
  ⟨⟨0, rfl, by simp⟩, fun h => h⟩

theorem walkInv_lastOffset (st : WalkSt) (o : Nat) :
    WalkInv st { st with lastOffset := some o } :=
  ⟨⟨0, rfl, by simp⟩, fun _ => rfl⟩

theorem walkNodes_inv (rv : Value → List InstEntry → ValRes) (env : Env)
    (ctx : WalkCtx) : ∀ (ns : List Node) (st : WalkSt),
    WalkInv st (walkNodes rv env ctx ns st).st
  | [], st => walkInv_refl st
  | n :: rest, st => by
    have h1 := handleNode_inv rv env ctx n st
    simp only [walkNodes]
    cases hf : (handleNode rv env ctx n st).fault with
    | some f => exact h1
    | none =>
      have h2 := walkNodes_inv rv env ctx rest (handleNode rv env ctx n st).st
      exact walkInv_trans h1 h2

theorem topLoopGo_inv (rv : Value → List InstEntry → ValRes) (env : Env)
    (ctx : WalkCtx) : ∀ (ns : NodeList) (st : WalkSt),
    WalkInv st (topLoopGo rv env ctx ns st).st
  | .nil, st => walkInv_refl st
  | .cons node rest, st => by
    simp only [topLoopGo]
    have hpop : ∀ (s : WalkSt), WalkInv s ((popIfElement node s)) := by
      intro s
      cases node <;> simp only [popIfElement] <;> exact walkInv_refl s
    cases hsl : ctx.flags.slot with
    | some slotName =>
      cases node with
      | comment d l =>
        simp only [pushIfElement]
        exact walkInv_trans (walkInv_refl st) (topLoopGo_inv rv env ctx rest st)
      | textN c l =>
        simp only [pushIfElement]
        by_cases ht : slotName = (none : Option String)
        · rw [if_pos ht]
          have hw := walkNodes_inv rv env ctx (depthFirstN (.textN c l)) st
          cases hwf : (walkNodes rv env ctx (depthFirstN (.textN c l)) st).fault with
          | some f => exact hw
          | none =>
            exact walkInv_trans hw (topLoopGo_inv rv env ctx rest _)
        · rw [if_neg ht]
          exact topLoopGo_inv rv env ctx rest st
      | element t a lo cs =>
        simp only [pushIfElement]
        by_cases hm : getAttrN a "slot" = slotName
        · rw [if_pos hm]
          have hbase : WalkInv st
              { st with
                  instances := (⟨t, none⟩ : InstEntry) :: st.instances,
                  lastOffset := some lo.startOffset } :=
            walkInv_trans (walkInv_instances st _) (walkInv_lastOffset _ _)
          have hw := walkNodes_inv rv env ctx (depthFirstN (.element t a lo cs))
            { st with
                instances := (⟨t, none⟩ : InstEntry) :: st.instances,
                lastOffset := some lo.startOffset }
          cases hwf : (walkNodes rv env ctx (depthFirstN (.element t a lo cs))
              { st with
                  instances := (⟨t, none⟩ : InstEntry) :: st.instances,
                  lastOffset := some lo.startOffset }).fault with
          | some f => exact walkInv_trans hbase hw
          | none =>
            cases hwo : (walkNodes rv env ctx (depthFirstN (.element t a lo cs))
                { st with
                    instances := (⟨t, none⟩ : InstEntry) :: st.instances,
                    lastOffset := some lo.startOffset }).st.lastOffset with
            | none =>
              simp only [flushToC, hwo]
              exact walkInv_trans hbase hw
            | some prev =>
              simp only [flushToC, hwo]
              refine walkInv_trans (walkInv_trans (walkInv_trans hbase hw)
                (walkInv_lastOffset _ lo.endOffset)) ?_
              exact walkInv_trans (hpop _) (topLoopGo_inv rv env ctx rest _)
        · rw [if_neg hm]
          refine walkInv_trans (walkInv_trans
            (walkInv_instances st ((⟨t, none⟩ : InstEntry) :: st.instances))
            (walkInv_lastOffset _ lo.endOffset)) ?_
          exact walkInv_trans (hpop _) (topLoopGo_inv rv env ctx rest _)
    | none =>
      have hbase : WalkInv st
          { pushIfElement node st with
              instances := traverseN node (pushIfElement node st).instances } := by
        cases node <;> simp only [pushIfElement, traverseN_id] <;>
          exact walkInv_refl st
      have hw := walkNodes_inv rv env ctx (depthFirstN node)
        { pushIfElement node st with
            instances := traverseN node (pushIfElement node st).instances }
      cases hwf : (walkNodes rv env ctx (depthFirstN node)
          { pushIfElement node st with
              instances := traverseN node (pushIfElement node st).instances }).fault with
      | some f => exact walkInv_trans hbase hw
      | none =>
        refine walkInv_trans (walkInv_trans (walkInv_trans hbase hw) (hpop _)) ?_
        exact topLoopGo_inv rv env ctx rest _


/-! ## Claim theorems -/

/-- C1, counterexample.  The claim says that a render that runs to
completion has consumed every value exactly once and that a final
`partIndex` different from `len(result.values)` raises a consistency fault
rather than silently finishing.  But when the parsed tree's top-level
child-node list is absent, `renderTemplateResult` returns before the
traversal, the flush and the assertion: here a template with one value
finishes with no fault, no chunks, no consumption and final
`partIndex = 0 ≠ 1`. -/
theorem c1_counterexample :
    renderTemplateResultF 1 emptyEnv ⟨"", none, [], .cons (.prim "x") .nil⟩
        none [] ⟨none, false⟩ [] =
      ⟨[], [], [], 0, none⟩
    ∧ (ValueList.cons (.prim "x") .nil).length = 1 := by
  decide

/-- C1, amended.  Provided the parsed tree's top-level child-node list is
present: if the render runs to completion (no fault), every value was
consumed exactly once, in order — the ghost consumption trace is exactly
`[0, ..., len(values)-1]` and the final `partIndex` equals `len(values)` —
and the trailing literal markup was flushed (the last chunk is the final
flush); and if the traversal completes but the final `partIndex` differs
from `len(values)`, the run ends with the consistency fault
`partIndexMismatch` (thrown after the flush chunk). -/
theorem c1_value_conservation (fuel : Nat) (env : Env) (td : TemplateData)
    (cr : Option ChildRenderer) (claimed : List Nat) (flags : Flags)
    (inst : List InstEntry) (nodes : NodeList)
    (hn : td.childNodes = some nodes) :
    ((renderTemplateResultF fuel env td cr claimed flags inst).fault = none →
      (renderTemplateResultF fuel env td cr claimed flags inst).partIndex
          = td.values.length
      ∧ (renderTemplateResultF fuel env td cr claimed flags inst).consumed
          = List.range td.values.length
      ∧ ∃ body off,
          (renderTemplateResultF fuel env td cr claimed flags inst).chunks
            = body ++ [.text (jsSubstring td.html off none)])
    ∧ (∀ w, topLoopGo (fun v i => renderValueF fuel env cr flags v i) env
          ⟨td.html, td.strings, td.values, claimed, flags, cr⟩ nodes
          ⟨some 0, 0, -1, inst, []⟩ = w →
        w.fault = none → w.st.partIndex ≠ td.values.length →
        (renderTemplateResultF fuel env td cr claimed flags inst).fault
          = some (.partIndexMismatch w.st.partIndex td.values.length)) := by
  have hinv := topLoopGo_inv (fun v i => renderValueF fuel env cr flags v i) env
    ⟨td.html, td.strings, td.values, claimed, flags, cr⟩ nodes
    ⟨some 0, 0, -1, inst, []⟩
  obtain ⟨⟨k, hk1, hk2⟩, hlo⟩ := hinv
  simp only [renderTemplateResultF, renderTemplateResultGo, hn]
  cases hwf : (topLoopGo (fun v i => renderValueF fuel env cr flags v i) env
      ⟨td.html, td.strings, td.values, claimed, flags, cr⟩ nodes
      ⟨some 0, 0, -1, inst, []⟩).fault with
  | some f =>
    constructor
    · intro hcontra
      simp [hwf] at hcontra
    · intro w hw hwnone _
      rw [hw] at hwf
      rw [hwf] at hwnone
      exact absurd hwnone (by simp)
  | none =>
    have hsome := hlo rfl
    obtain ⟨off, hoff⟩ := Option.isSome_iff_exists.mp hsome
    simp only [flushToC, hoff]
    by_cases hlen :
        (topLoopGo (fun v i => renderValueF fuel env cr flags v i) env
          ⟨td.html, td.strings, td.values, claimed, flags, cr⟩ nodes
          ⟨some 0, 0, -1, inst, []⟩).st.partIndex = td.values.length
    · rw [if_pos hlen]
      have hk1' : (topLoopGo (fun v i => renderValueF fuel env cr flags v i) env
          ⟨td.html, td.strings, td.values, claimed, flags, cr⟩ nodes
          ⟨some 0, 0, -1, inst, []⟩).st.partIndex = k := by simpa using hk1
      have hk2' : (topLoopGo (fun v i => renderValueF fuel env cr flags v i) env
          ⟨td.html, td.strings, td.values, claimed, flags, cr⟩ nodes
          ⟨some 0, 0, -1, inst, []⟩).st.consumed = List.range' 0 k := by
        simpa using hk2
      have hkk : k = td.values.length := by
        rw [hk1'] at hlen
        exact hlen
      constructor
      · intro _
        refine ⟨hlen, ?_, ?_⟩
        · simp [hk2', hkk, List.range_eq_range']
        · exact ⟨_, off, rfl⟩
      · intro w hw hwnone hne
        rw [hw] at hlen
        exact absurd hlen hne
    · rw [if_neg hlen]
      constructor
      · intro hcontra
        simp at hcontra
      · intro w hw _ _
        rw [hw] at hlen ⊢

/-- C1 witness: the concrete one-value template renders to completion with
`partIndex = 1`, trace `[0]`, and a final flush chunk. -/
theorem c1_value_conservation_witness :
    (c1Template.childNodes = some c1Nodes)
    ∧ (renderTemplateResultF 5 emptyEnv c1Template none [] ⟨none, false⟩ []).fault
        = none
    ∧ ((renderTemplateResultF 5 emptyEnv c1Template none [] ⟨none, false⟩ []).partIndex
          = c1Template.values.length
        ∧ (renderTemplateResultF 5 emptyEnv c1Template none [] ⟨none, false⟩ []).consumed
          = List.range c1Template.values.length
        ∧ ∃ body off,
            (renderTemplateResultF 5 emptyEnv c1Template none [] ⟨none, false⟩ []).chunks
              = body ++ [.text (jsSubstring c1Template.html off none)]) :=
  ⟨rfl, by decide,
    (c1_value_conservation 5 emptyEnv c1Template none [] ⟨none, false⟩ [] c1Nodes
        rfl).1 (by decide)⟩

/-- C4, code evaluated at the failing input.  The claim says an entry is
pushed before descending into each element's subtree and popped on exit, so
that a render-light directive dispatched inside a component's subtree
resolves its nearest enclosing element from the top of the stack.  In the
code only top-level nodes are pushed (the `parse5-traverse` pre/post
push-pop pass completes synchronously before any chunk is produced, see
`traverseL_id`), so for `<x-out><span><!--marker--></span></x-out>` the
dispatch of the render-light value inside the plain `<span>` sees `x-out`'s
entry (holding the constructed instance) on top and renders its
`renderLight()` output `"LIGHT"` — under the claimed stack discipline the
top entry would be the instance-less `<span>` and nothing would be
rendered. -/
theorem c4_stack_not_nested :
    (renderTemplateResultF 5 c4Env c4Template none [] ⟨none, false⟩ []).fault = none
    ∧ Chunk.text "LIGHT" ∈
        (renderTemplateResultF 5 c4Env c4Template none [] ⟨none, false⟩ []).chunks := by
  decide

/-- C5, counterexample.  The claim says the walker flushes up to the slot's
start tag's end and skips the slot element's own literal children entirely
(not walked or emitted).  In the code the flush stops at the start tag's
START (the `<slot ...>` tag itself is never emitted — no chunk of the run
contains it), and the slot's descendants are still visited by the pre-order
traversal: the marker-comment child consumes and renders its value
(`"OOPS"` appears), after re-emitting a garbled span because the cursor was
already past the marker. -/
theorem c5_counterexample :
    (renderTemplateResultF 5 emptyEnv c5Template
        (some fun _ => [Chunk.text "PROJ"]) [] ⟨none, true⟩ []).fault = none
    ∧ Chunk.text "OOPS" ∈
        (renderTemplateResultF 5 emptyEnv c5Template
          (some fun _ => [Chunk.text "PROJ"]) [] ⟨none, true⟩ []).chunks
    ∧ (renderTemplateResultF 5 emptyEnv c5Template
        (some fun _ => [Chunk.text "PROJ"]) [] ⟨none, true⟩ []).chunks =
      [Chunk.text "", .text "PROJ", .text "<!--m--></slot>", .openPart none,
       .text "OOPS", .closePart, .text "</slot>tail"] := by
  decide

/-- C6, counterexample.  The claim says an array does not get one shared
bracket pair around all its elements.  Dispatching the one-element array
`[prim "a"]` yields an outer bare marker pair wrapping the whole array
(emitted by `renderValue` before it inspects the value's kind) in addition
to the element's own pair. -/
theorem c6_counterexample :
    renderValueF 3 emptyEnv none ⟨none, false⟩ (.arr (.cons (.prim "a") .nil)) [] =
      ⟨[.openPart none, .openPart none, .text "a", .closePart, .closePart],
       [], none⟩ := by
  decide

/-- C7, counterexample.  The claim says the hidden count attribute is
positioned immediately after the tag's own attributes.  For
`<div a$lit$=... b="x">` the count attribute is emitted immediately after
the last BOUND attribute, before the tag's remaining literal markup — the
unbound attribute `b="x"` follows it in the output. -/
theorem c7_counterexample :
    (renderTemplateResultF 5 emptyEnv c7Template none [] ⟨none, false⟩ []).fault = none
    ∧ renderedText
        (renderTemplateResultF 5 emptyEnv c7Template none [] ⟨none, false⟩ []).chunks =
      "<div a=\"1\" __lit-attr=\"1\" b=\"x\"></div>" := by
  decide

/-- C3: when the Template Walker reaches a child-position marker whose part
index is superseded per the distributed index (the code's check, after the
increment, is `partIndex <= distributedIndex`), it emits exactly the literal
flush followed by one matching bracket-marker pair — carrying the template's
digest when the value is a `TemplateResult`, bare otherwise — with no
content between the markers, and it does not dispatch the value: the result
is the same for every dispatcher `rv`. -/
theorem c3_superseded_marker (rv : Value → List InstEntry → ValRes) (env : Env)
    (ctx : WalkCtx) (loc : CLoc) (st : WalkSt) (prev : Nat)
    (hoff : st.lastOffset = some prev)
    (hsup : (st.partIndex : Int) + 1 ≤ st.distributedIndex) :
    handleNode rv env ctx (.comment markerData loc) st =
      ⟨[.text (jsSubstring ctx.html prev (some loc.startOffset)),
        .openPart (templateDigest (ctx.values.getD st.partIndex)), .closePart],
       consumeValue { st with lastOffset := some loc.endOffset }, none⟩ := by
  simp only [handleNode, flushToC, hoff, if_pos rfl, consumeValue]
  have hc : ((st.partIndex + 1 : Nat) : Int) ≤ st.distributedIndex := by
    push_cast
    omega
  rw [if_pos hc]
  simp

/-- C3 witness: a concrete superseded marker (`partIndex = 0`,
`distributedIndex = 5`) emits exactly the flush and the bare bracket pair. -/
theorem c3_superseded_marker_witness :
    ((⟨some 0, 0, 5, [], []⟩ : WalkSt).lastOffset = some 0
      ∧ (((⟨some 0, 0, 5, [], []⟩ : WalkSt).partIndex : Int) + 1
          ≤ (⟨some 0, 0, 5, [], []⟩ : WalkSt).distributedIndex))
    ∧ handleNode (fun _ i => ⟨[], i, none⟩) emptyEnv
        ⟨"abcdefgh", [], .cons (.prim "x") .nil, [], ⟨none, false⟩, none⟩
        (.comment markerData ⟨3, 7⟩) ⟨some 0, 0, 5, [], []⟩ =
      ⟨[.text (jsSubstring "abcdefgh" 0 (some 3)),
        .openPart (templateDigest ((ValueList.cons (.prim "x") .nil).getD 0)),
        .closePart],
       consumeValue { (⟨some 0, 0, 5, [], []⟩ : WalkSt) with lastOffset := some 7 },
       none⟩ := by
  refine ⟨⟨rfl, by norm_num⟩, ?_⟩
  exact c3_superseded_marker (fun _ i => ⟨[], i, none⟩) emptyEnv
    ⟨"abcdefgh", [], .cons (.prim "x") .nil, [], ⟨none, false⟩, none⟩
    ⟨3, 7⟩ ⟨some 0, 0, 5, [], []⟩ 0 rfl (by norm_num)

/-- C5, amended: for a slot element reached while flattening is enabled
(and not claimed, with no bound attributes), the walker flushes the literal
markup up to the slot's start tag's START (the slot tag itself is not
emitted), invokes the supplied child-content provider with the slot's
declared name, and skips the slot element's source span cursor-wise — the
slot's descendant nodes are nonetheless still visited by the pre-order
traversal afterwards (see the counterexample). -/
theorem c5_slot_flush (rv : Value → List InstEntry → ValRes) (env : Env)
    (ctx : WalkCtx) (attrs : List Attr) (loc : ELoc) (children : NodeList)
    (st : WalkSt) (prev : Nat) (r : ChildRenderer)
    (hflat : ctx.flags.flattened = true)
    (hcr : ctx.cr = some r)
    (hncl : loc.startOffset ∉ ctx.claimed)
    (hoff : st.lastOffset = some prev)
    (hattrs : ∀ a ∈ attrs, jsEndsWith a.name "$lit$" = false) :
    handleNode rv env ctx (.element "slot" attrs loc children) st =
      ⟨.text (jsSubstring ctx.html prev (some loc.startTagStart))
         :: r (getAttrN attrs "name"),
       { st with lastOffset := some loc.endOffset }, none⟩ := by
  have hpa := fun s => processAttrs_nobound env ctx "slot" attrs s hattrs
  simp [handleNode, flushToC, hncl, hoff, hcr, hflat, hpa]

/-- C5 witness: a concrete flattened slot with provider output `P`. -/
theorem c5_slot_flush_witness :
    ((⟨none, true⟩ : Flags).flattened = true
      ∧ (∀ a ∈ [(⟨"name", [.lit "s"], 2, 3⟩ : Attr)],
          jsEndsWith a.name "$lit$" = false))
    ∧ handleNode (fun _ i => ⟨[], i, none⟩) emptyEnv
        ⟨"0123456789", [], .nil, [], ⟨none, true⟩, some fun _ => [Chunk.text "P"]⟩
        (.element "slot" [⟨"name", [.lit "s"], 2, 3⟩] ⟨0, 9, 0, 4⟩ .nil)
        ⟨some 0, 0, -1, [], []⟩ =
      ⟨.text (jsSubstring "0123456789" 0 (some 0))
         :: [Chunk.text "P"],
       { (⟨some 0, 0, -1, [], []⟩ : WalkSt) with lastOffset := some 9 }, none⟩ := by
  refine ⟨⟨rfl, by decide⟩, ?_⟩
  exact c5_slot_flush (fun _ i => ⟨[], i, none⟩) emptyEnv
    ⟨"0123456789", [], .nil, [], ⟨none, true⟩, some fun _ => [Chunk.text "P"]⟩
    [⟨"name", [.lit "s"], 2, 3⟩] ⟨0, 9, 0, 4⟩ .nil
    ⟨some 0, 0, -1, [], []⟩ 0 _ rfl rfl (by simp) rfl (by decide)

/-- C7, amended: for a plain (non-custom, non-slot, unclaimed) start tag,
`handleNode` emits the attribute-resolution chunks followed by exactly one
hidden count attribute chunk when at least one attribute is bound — its
value is exactly the number N of bound (reserved-suffix) attributes — and
no count chunk when N is zero.  The count chunk sits immediately after the
last bound attribute's output; the tag's remaining literal markup
(including any unbound attributes after the last bound one) is flushed
later and therefore follows it. -/
theorem c7_attr_count (rv : Value → List InstEntry → ValRes) (env : Env)
    (ctx : WalkCtx) (tagName : String) (attrs : List Attr) (loc : ELoc)
    (children : NodeList) (st : WalkSt)
    (hncl : loc.startOffset ∉ ctx.claimed)
    (hplain : jsContainsChar tagName '-' = false)
    (hnslot : ¬(tagName = "slot" ∧ ctx.flags.flattened = true)) :
    handleNode rv env ctx (.element tagName attrs loc children) st =
      ⟨(processAttrs env ctx tagName attrs st).1 ++
         (if 0 < attrs.countP (fun a => jsEndsWith a.name "$lit$")
          then [Chunk.text (countAttrText
                  (attrs.countP (fun a => jsEndsWith a.name "$lit$")))]
          else []),
       (processAttrs env ctx tagName attrs st).2.1, none⟩ := by
  have hnclb : ctx.claimed.contains loc.startOffset = false := by
    simpa using hncl
  simp only [handleNode, hnclb, hplain, Bool.false_eq_true, if_false,
    if_neg hnslot, processAttrs_count env ctx tagName attrs st]
  simp

/-- C7 witness: one bound attribute gives exactly one count chunk with
value 1, immediately after the rewritten bound attribute. -/
theorem c7_attr_count_witness :
    (jsContainsChar "div" '-' = false
      ∧ ¬("div" = "slot" ∧ (⟨none, false⟩ : Flags).flattened = true))
    ∧ handleNode (fun _ i => ⟨[], i, none⟩) emptyEnv
        ⟨"<div a$lit$=\"_\"></div>", [], .cons (.prim "1") .nil, [],
         ⟨none, false⟩, none⟩
        (.element "div" [⟨"a$lit$", [.markerTok], 5, 15⟩] ⟨0, 22, 0, 16⟩ .nil)
        ⟨some 0, 0, -1, [], []⟩ =
      ⟨(processAttrs emptyEnv
          ⟨"<div a$lit$=\"_\"></div>", [], .cons (.prim "1") .nil, [],
           ⟨none, false⟩, none⟩ "div"
          [⟨"a$lit$", [.markerTok], 5, 15⟩] ⟨some 0, 0, -1, [], []⟩).1 ++
         (if 0 < [(⟨"a$lit$", [.markerTok], 5, 15⟩ : Attr)].countP
                (fun a => jsEndsWith a.name "$lit$")
          then [Chunk.text (countAttrText
                  ([(⟨"a$lit$", [.markerTok], 5, 15⟩ : Attr)].countP
                    (fun a => jsEndsWith a.name "$lit$")))]
          else []),
       (processAttrs emptyEnv
          ⟨"<div a$lit$=\"_\"></div>", [], .cons (.prim "1") .nil, [],
           ⟨none, false⟩, none⟩ "div"
          [⟨"a$lit$", [.markerTok], 5, 15⟩] ⟨some 0, 0, -1, [], []⟩).2.1,
       none⟩ := by
  refine ⟨⟨by decide, by decide⟩, ?_⟩
  exact c7_attr_count (fun _ i => ⟨[], i, none⟩) emptyEnv
    ⟨"<div a$lit$=\"_\"></div>", [], .cons (.prim "1") .nil, [],
     ⟨none, false⟩, none⟩ "div"
    [⟨"a$lit$", [.markerTok], 5, 15⟩] ⟨0, 22, 0, 16⟩ .nil
    ⟨some 0, 0, -1, [], []⟩ (by simp) (by decide) (by decide)

/-- C8: when a registered component's constructor throws during Component
Expansion, the exception is caught (and logged), the instance is treated as
absent, and the element renders as a plain non-expanded tag: the bound
attributes are resolved, the count attribute appended, the start tag
flushed — and no nested component output is spliced in, the distributed
index and the instance stack are untouched, and the walk continues with no
fault. -/
theorem c8_ctor_throw (rv : Value → List InstEntry → ValRes) (env : Env)
    (ctx : WalkCtx) (tagName : String) (attrs : List Attr) (loc : ELoc)
    (children : NodeList) (st : WalkSt) (celem : CElem)
    (hncl : loc.startOffset ∉ ctx.claimed)
    (hdash : jsContainsChar tagName '-' = true)
    (hreg : env.registry tagName = some celem)
    (hthrow : celem.construct = none)
    (hoff : st.lastOffset.isSome = true) :
    ∃ off,
      (processAttrs env ctx tagName attrs st).2.1.lastOffset = some off
      ∧ handleNode rv env ctx (.element tagName attrs loc children) st =
          ⟨(processAttrs env ctx tagName attrs st).1 ++
             (if 0 < (processAttrs env ctx tagName attrs st).2.2
              then [Chunk.text (countAttrText
                      (processAttrs env ctx tagName attrs st).2.2)]
              else []) ++
             [Chunk.text (jsSubstring ctx.html off (some loc.startTagEnd))],
           { (processAttrs env ctx tagName attrs st).2.1 with
               lastOffset := some loc.startTagEnd }, none⟩
      ∧ (handleNode rv env ctx (.element tagName attrs loc children) st).st.instances
          = st.instances
      ∧ (handleNode rv env ctx
            (.element tagName attrs loc children) st).st.distributedIndex
          = st.distributedIndex
      ∧ (handleNode rv env ctx (.element tagName attrs loc children) st).fault
          = none := by
  have hinv := processAttrs_inv env ctx tagName attrs st
  obtain ⟨off, hoff2⟩ := Option.isSome_iff_exists.mp (hinv.2.1 hoff)
  have hnslot : ¬(tagName = "slot" ∧ ctx.flags.flattened = true) := by
    rintro ⟨he, -⟩
    subst he
    exact absurd hdash (by decide)
  have hmain : handleNode rv env ctx (.element tagName attrs loc children) st =
      ⟨(processAttrs env ctx tagName attrs st).1 ++
         (if 0 < (processAttrs env ctx tagName attrs st).2.2
          then [Chunk.text (countAttrText
                  (processAttrs env ctx tagName attrs st).2.2)]
          else []) ++
         [Chunk.text (jsSubstring ctx.html off (some loc.startTagEnd))],
       { (processAttrs env ctx tagName attrs st).2.1 with
           lastOffset := some loc.startTagEnd }, none⟩ := by
    have hnclb : ctx.claimed.contains loc.startOffset = false := by
      simpa using hncl
    simp only [handleNode, flushToC, hnclb, hdash, if_neg hnslot, hreg,
      hthrow, hoff2, Bool.false_eq_true, if_false, if_true]
    simp
  refine ⟨off, hoff2, hmain, ?_, ?_, ?_⟩ <;> rw [hmain]
  · exact hinv.2.2.1
  · exact hinv.2.2.2

/-- C8 witness: a registered `x-a` whose constructor throws renders the
start tag as a plain tag and the walk continues faultlessly. -/
theorem c8_ctor_throw_witness :
    (jsContainsChar "x-a" '-' = true
      ∧ (Env.registry
          ⟨fun t => if t = "x-a" then some ⟨none⟩ else none,
           fun _ _ => none, fun _ => ""⟩ "x-a" = some ⟨none⟩)
      ∧ (CElem.construct ⟨none⟩ = none))
    ∧ ∃ off,
      (processAttrs
          ⟨fun t => if t = "x-a" then some ⟨none⟩ else none,
           fun _ _ => none, fun _ => ""⟩
          ⟨"<x-a></x-a>", [], .nil, [], ⟨none, false⟩, none⟩ "x-a" []
          ⟨some 0, 0, -1, [], []⟩).2.1.lastOffset = some off
      ∧ handleNode (fun _ i => ⟨[], i, none⟩)
          ⟨fun t => if t = "x-a" then some ⟨none⟩ else none,
           fun _ _ => none, fun _ => ""⟩
          ⟨"<x-a></x-a>", [], .nil, [], ⟨none, false⟩, none⟩
          (.element "x-a" [] ⟨0, 11, 0, 5⟩ .nil) ⟨some 0, 0, -1, [], []⟩ =
          ⟨(processAttrs
              ⟨fun t => if t = "x-a" then some ⟨none⟩ else none,
               fun _ _ => none, fun _ => ""⟩
              ⟨"<x-a></x-a>", [], .nil, [], ⟨none, false⟩, none⟩ "x-a" []
              ⟨some 0, 0, -1, [], []⟩).1 ++
             (if 0 < (processAttrs
                  ⟨fun t => if t = "x-a" then some ⟨none⟩ else none,
                   fun _ _ => none, fun _ => ""⟩
                  ⟨"<x-a></x-a>", [], .nil, [], ⟨none, false⟩, none⟩ "x-a" []
                  ⟨some 0, 0, -1, [], []⟩).2.2
              then [Chunk.text (countAttrText (processAttrs
                      ⟨fun t => if t = "x-a" then some ⟨none⟩ else none,
                       fun _ _ => none, fun _ => ""⟩
                      ⟨"<x-a></x-a>", [], .nil, [], ⟨none, false⟩, none⟩ "x-a" []
                      ⟨some 0, 0, -1, [], []⟩).2.2)]
              else []) ++
             [Chunk.text (jsSubstring "<x-a></x-a>" off (some 5))],
           { (processAttrs
               ⟨fun t => if t = "x-a" then some ⟨none⟩ else none,
                fun _ _ => none, fun _ => ""⟩
               ⟨"<x-a></x-a>", [], .nil, [], ⟨none, false⟩, none⟩ "x-a" []
               ⟨some 0, 0, -1, [], []⟩).2.1 with
               lastOffset := some 5 }, none⟩
      ∧ (handleNode (fun _ i => ⟨[], i, none⟩)
          ⟨fun t => if t = "x-a" then some ⟨none⟩ else none,
           fun _ _ => none, fun _ => ""⟩
          ⟨"<x-a></x-a>", [], .nil, [], ⟨none, false⟩, none⟩
          (.element "x-a" [] ⟨0, 11, 0, 5⟩ .nil)
          ⟨some 0, 0, -1, [], []⟩).st.instances = []
      ∧ (handleNode (fun _ i => ⟨[], i, none⟩)
          ⟨fun t => if t = "x-a" then some ⟨none⟩ else none,
           fun _ _ => none, fun _ => ""⟩
          ⟨"<x-a></x-a>", [], .nil, [], ⟨none, false⟩, none⟩
          (.element "x-a" [] ⟨0, 11, 0, 5⟩ .nil)
          ⟨some 0, 0, -1, [], []⟩).st.distributedIndex = -1
      ∧ (handleNode (fun _ i => ⟨[], i, none⟩)
          ⟨fun t => if t = "x-a" then some ⟨none⟩ else none,
           fun _ _ => none, fun _ => ""⟩
          ⟨"<x-a></x-a>", [], .nil, [], ⟨none, false⟩, none⟩
          (.element "x-a" [] ⟨0, 11, 0, 5⟩ .nil)
          ⟨some 0, 0, -1, [], []⟩).fault = none := by
  refine ⟨⟨by decide, by simp, rfl⟩, ?_⟩
  exact c8_ctor_throw (fun _ i => ⟨[], i, none⟩)
    ⟨fun t => if t = "x-a" then some ⟨none⟩ else none,
     fun _ _ => none, fun _ => ""⟩
    ⟨"<x-a></x-a>", [], .nil, [], ⟨none, false⟩, none⟩ "x-a" []
    ⟨0, 11, 0, 5⟩ .nil ⟨some 0, 0, -1, [], []⟩ ⟨none⟩ (by simp) (by decide)
    (by simp) rfl rfl

/-- C9: dispatching a render-light directive with an empty instance stack
faults — the unguarded read of the top stack entry throws after the bare
opening marker was yielded, so the run ends with the
`instanceStackEmpty` fault and no closing marker chunk. -/
theorem c9_renderlight_empty_stack (n : Nat) (env : Env)
    (cr : Option ChildRenderer) (flags : Flags) :
    renderValueF (n + 1) env cr flags .renderLight [] =
      ⟨[.openPart none], [], some .instanceStackEmpty⟩ := by
  rfl

/-- C10: when the parsed tree's top-level child-node list is absent,
`renderTemplateResult` returns immediately after fetching the template —
no chunks, no final flush, no consistency fault — whatever the values list
is. -/
theorem c10_missing_childnodes (fuel : Nat) (env : Env) (html : String)
    (strings : List String) (values : ValueList) (cr : Option ChildRenderer)
    (claimed : List Nat) (flags : Flags) (inst : List InstEntry) :
    renderTemplateResultF fuel env ⟨html, none, strings, values⟩
        cr claimed flags inst =
      ⟨[], inst, [], 0, none⟩ := by
  rfl


theorem depthRun_append : ∀ (a b : List Chunk) (d : Nat),
    depthRun (a ++ b) d = (depthRun a d).bind (fun e => depthRun b e)
  | [], _, _ => rfl
  | .text _ :: a, b, d => depthRun_append a b d
  | .openPart _ :: a, b, d => depthRun_append a b (d + 1)
  | .closePart :: _, _, 0 => rfl
  | .closePart :: a, b, d + 1 => depthRun_append a b d

theorem depthRun_shift : ∀ (l : List Chunk) (d e k : Nat),
    depthRun l d = some e → depthRun l (d + k) = some (e + k)
  | [], d, e, k, h => by
    simp only [depthRun, Option.some.injEq] at h ⊢
    omega
  | .text _ :: l, d, e, k, h => depthRun_shift l d e k h
  | .openPart _ :: l, d, e, k, h => by
    have hr := depthRun_shift l (d + 1) e k h
    show depthRun l (d + k + 1) = some (e + k)
    have harr : d + k + 1 = d + 1 + k := by omega
    rw [harr]
    exact hr
  | .closePart :: l, 0, e, k, h => by simp [depthRun] at h
  | .closePart :: l, d + 1, e, k, h => by
    have harr : d + 1 + k = (d + k) + 1 := by omega
    rw [harr]
    show depthRun l (d + k) = some (e + k)
    exact depthRun_shift l d e k h

theorem MarkerBalanced.nil : MarkerBalanced [] := rfl

theorem MarkerBalanced.append {a b : List Chunk} (ha : MarkerBalanced a)
    (hb : MarkerBalanced b) : MarkerBalanced (a ++ b) := by
  unfold MarkerBalanced at *
  rw [depthRun_append, ha]
  exact hb

theorem MarkerBalanced.textCons (s : String) {l : List Chunk}
    (h : MarkerBalanced l) : MarkerBalanced (.text s :: l) := h

theorem MarkerBalanced.bracket (dg : Option String) {m : List Chunk}
    (hm : MarkerBalanced m) : MarkerBalanced (.openPart dg :: m ++ [.closePart]) := by
  show depthRun (m ++ [.closePart]) 1 = some 0
  rw [depthRun_append]
  rw [depthRun_shift m 0 0 1 hm]
  rfl

theorem MarkerBalanced.pair (dg : Option String) :
    MarkerBalanced [.openPart dg, .closePart] := rfl

theorem markerBalanced_textOnly : ∀ (l : List Chunk), textOnly l = true →
    MarkerBalanced l
  | [], _ => rfl
  | .text s :: l, h => by
    have : textOnly l = true := by simpa [textOnly] using h
    exact MarkerBalanced.textCons s (markerBalanced_textOnly l this)
  | .openPart _ :: _, h => by simp [textOnly] at h
  | .closePart :: _, h => by simp [textOnly] at h

theorem balancedValues_getD : ∀ (vs : ValueList) (i : Nat),
    balancedValues vs = true → balancedValue (vs.getD i) = true
  | .nil, _, _ => rfl
  | .cons v _, 0, h => by
    simp only [balancedValues, Bool.and_eq_true] at h
    exact h.1
  | .cons _ vs, i + 1, h => by
    simp only [balancedValues, Bool.and_eq_true] at h
    exact balancedValues_getD vs i h.2

theorem balancedStack_nil : BalancedStack [] := by
  intro e he
  simp at he

theorem balancedStack_cons_none (t : String) {l : List InstEntry}
    (h : BalancedStack l) : BalancedStack (⟨t, none⟩ :: l) := by
  intro e he i hi
  rcases List.mem_cons.mp he with rfl | hmem
  · simp at hi
  · exact h e hmem i hi

theorem balancedStack_tail {l : List InstEntry} (h : BalancedStack l) :
    BalancedStack l.tail := by
  intro e he i hi
  exact h e (List.mem_of_mem_tail he) i hi

theorem balancedStack_setTop {l : List InstEntry} {j : Instance}
    (h : BalancedStack l) (hj : InstanceOk j) :
    BalancedStack (setTopInst l j) := by
  cases l with
  | nil => exact balancedStack_nil
  | cons e rest =>
    intro e' he' i hi
    rcases List.mem_cons.mp he' with rfl | hmem
    · simp [setTopInst] at hi
      subst hi
      exact hj
    · exact h e' (List.mem_cons_of_mem e hmem) i hi

theorem processAttrs_textOnly (env : Env) (ctx : WalkCtx) (t : String) :
    ∀ (attrs : List Attr) (st : WalkSt),
      textOnly (processAttrs env ctx t attrs st).1 = true
  | [], _ => rfl
  | attr :: rest, st => by
    by_cases hb : jsEndsWith attr.name "$lit$" = true
    · by_cases hp : jsStartsWith attr.name "." = true
      · simp only [processAttrs]
        rw [if_pos hb, if_pos hp]
        cases henv : env.reflected t (jsDrop
            (env.lastAttrNameProp (ctx.strings.getD st.partIndex "")) 1) with
        | none =>
          simpa [textOnly] using processAttrs_textOnly env ctx t rest _
        | some rn =>
          simpa [textOnly] using processAttrs_textOnly env ctx t rest _
      · simp only [processAttrs]
        rw [if_pos hb, if_neg hp]
        simpa [textOnly] using processAttrs_textOnly env ctx t rest _
    · simp only [processAttrs]
      rw [if_neg hb]
      exact processAttrs_textOnly env ctx t rest st



theorem markerBalanced_countChunks (n : Nat) :
    MarkerBalanced (if 0 < n then [Chunk.text (countAttrText n)] else []) := by
  split
  · exact MarkerBalanced.textCons _ MarkerBalanced.nil
  · exact MarkerBalanced.nil

theorem handleNode_good (rv : Value → List InstEntry → ValRes) (env : Env)
    (ctx : WalkCtx) (node : Node) (st : WalkSt)
    (hrv : RVGood rv) (henv : BalancedEnv env)
    (hcr : BalancedCR ctx.cr) (hvals : balancedValues ctx.values = true)
    (hst : BalancedStack st.instances) :
    ((handleNode rv env ctx node st).fault = none →
      MarkerBalanced (handleNode rv env ctx node st).chunks)
    ∧ BalancedStack (handleNode rv env ctx node st).st.instances := by
  cases node with
  | textN c loc => exact ⟨fun _ => MarkerBalanced.nil, hst⟩
  | comment data loc =>
    simp only [handleNode]
    split
    · cases hoff : st.lastOffset with
      | none =>
        simp only [flushToC, hoff, Bool.false_eq_true, eq_self_iff_true, if_true, if_false]
        exact ⟨fun h => by simp at h, hst⟩
      | some prev =>
        simp only [flushToC, hoff, Bool.false_eq_true, eq_self_iff_true, if_true, if_false]
        split
        · exact ⟨fun _ => MarkerBalanced.textCons _ (MarkerBalanced.pair _), hst⟩
        · have hv := balancedValues_getD ctx.values st.partIndex hvals
          have hr := hrv (ctx.values.getD st.partIndex) st.instances hv hst
          exact ⟨fun h => MarkerBalanced.textCons _ (hr.1 h), hr.2⟩
    · exact ⟨fun _ => MarkerBalanced.nil, hst⟩
  | element tagName attrs loc children =>
    simp only [handleNode]
    split
    · -- claimed node
      cases hoff : st.lastOffset with
      | none =>
        simp only [flushToC, hoff, Bool.false_eq_true, eq_self_iff_true, if_true, if_false]
        exact ⟨fun h => by simp at h, hst⟩
      | some prev =>
        simp only [flushToC, hoff, Bool.false_eq_true, eq_self_iff_true, if_true, if_false]
        exact ⟨fun _ => MarkerBalanced.textCons _ MarkerBalanced.nil, hst⟩
    · -- not claimed
      by_cases hslot : tagName = "slot" ∧ ctx.flags.flattened = true
      · rw [if_pos hslot]
        cases hoff : st.lastOffset with
        | none =>
          simp only [flushToC, hoff, Bool.false_eq_true, eq_self_iff_true, if_true, if_false]
          exact ⟨fun h => by simp at h, hst⟩
        | some prev =>
          simp only [flushToC, hoff, Bool.false_eq_true, eq_self_iff_true, if_true, if_false]
          have hpa := processAttrs_inv env ctx tagName attrs
            { st with lastOffset := some loc.endOffset }
          have hcrb : MarkerBalanced
              (match ctx.cr with
               | some r => r (getAttrN attrs "name")
               | none => []) := by
            cases hc : ctx.cr with
            | none => exact MarkerBalanced.nil
            | some r => exact hcr r _ hc
          refine ⟨fun _ => ?_, ?_⟩
          · refine MarkerBalanced.append (MarkerBalanced.append
              (MarkerBalanced.append (MarkerBalanced.textCons _ hcrb)
                (markerBalanced_textOnly _ (processAttrs_textOnly env ctx tagName attrs _)))
              (markerBalanced_countChunks _)) MarkerBalanced.nil
          · rw [hpa.2.2.1]
            exact hst
      · rw [if_neg hslot]
        by_cases hdash : jsContainsChar tagName '-' = true
        · rw [if_pos hdash]
          cases hreg : env.registry tagName with
          | none =>
            simp only [hreg, Bool.false_eq_true, eq_self_iff_true, if_true, if_false]
            have hpa := processAttrs_inv env ctx tagName attrs st
            refine ⟨fun _ => ?_, ?_⟩
            · refine MarkerBalanced.append (MarkerBalanced.append
                (MarkerBalanced.append MarkerBalanced.nil
                  (markerBalanced_textOnly _ (processAttrs_textOnly env ctx tagName attrs _)))
                (markerBalanced_countChunks _)) MarkerBalanced.nil
            · rw [hpa.2.2.1]
              exact hst
          | some celem =>
            simp only [hreg]
            cases hcon : celem.construct with
            | none =>
              simp only [hcon]
              have hpa := processAttrs_inv env ctx tagName attrs st
              cases hoff2 : (processAttrs env ctx tagName attrs st).2.1.lastOffset with
              | none =>
                simp only [flushToC, hoff2, Bool.false_eq_true, eq_self_iff_true, if_true, if_false]
                refine ⟨fun h => by simp at h, ?_⟩
                rw [hpa.2.2.1]
                exact hst
              | some off =>
                simp only [flushToC, hoff2, Bool.false_eq_true, eq_self_iff_true, if_true, if_false]
                refine ⟨fun _ => ?_, ?_⟩
                · refine MarkerBalanced.append (MarkerBalanced.append
                    (MarkerBalanced.append MarkerBalanced.nil
                      (markerBalanced_textOnly _ (processAttrs_textOnly env ctx tagName attrs _)))
                    (markerBalanced_countChunks _))
                    (MarkerBalanced.textCons _ MarkerBalanced.nil)
                · rw [hpa.2.2.1]
                  exact hst
            | some i =>
              simp only [hcon]
              have hok : InstanceOk i := henv tagName celem i hreg hcon
              have hst1 : BalancedStack (setTopInst st.instances i) :=
                balancedStack_setTop hst hok
              have hpa := processAttrs_inv env ctx tagName attrs
                { st with instances := setTopInst st.instances i }
              cases hoff2 : (processAttrs env ctx tagName attrs
                  { st with
                      instances := setTopInst st.instances i }).2.1.lastOffset with
              | none =>
                simp only [flushToC, hoff2, Bool.false_eq_true, eq_self_iff_true, if_true, if_false]
                refine ⟨fun h => by simp at h, ?_⟩
                rw [hpa.2.2.1]
                exact hst1
              | some off =>
                simp only [flushToC, hoff2, Bool.false_eq_true, eq_self_iff_true, if_true, if_false]
                refine ⟨fun _ => ?_, ?_⟩
                · refine MarkerBalanced.append (MarkerBalanced.append
                    (MarkerBalanced.append (MarkerBalanced.append MarkerBalanced.nil
                      (markerBalanced_textOnly _ (processAttrs_textOnly env ctx tagName attrs _)))
                    (markerBalanced_countChunks _))
                    (MarkerBalanced.textCons _ MarkerBalanced.nil)) hok.1
                · rw [hpa.2.2.1]
                  exact hst1
        · rw [if_neg hdash]
          simp only [Bool.false_eq_true, eq_self_iff_true, if_true, if_false]
          have hpa := processAttrs_inv env ctx tagName attrs st
          refine ⟨fun _ => ?_, ?_⟩
          · refine MarkerBalanced.append (MarkerBalanced.append
              (MarkerBalanced.append MarkerBalanced.nil
                (markerBalanced_textOnly _ (processAttrs_textOnly env ctx tagName attrs _)))
              (markerBalanced_countChunks _)) MarkerBalanced.nil
          · rw [hpa.2.2.1]
            exact hst



theorem walkNodes_good (rv : Value → List InstEntry → ValRes) (env : Env)
    (ctx : WalkCtx) (hrv : RVGood rv) (henv : BalancedEnv env)
    (hcr : BalancedCR ctx.cr) (hvals : balancedValues ctx.values = true) :
    ∀ (ns : List Node) (st : WalkSt), BalancedStack st.instances →
      ((walkNodes rv env ctx ns st).fault = none →
        MarkerBalanced (walkNodes rv env ctx ns st).chunks)
      ∧ BalancedStack (walkNodes rv env ctx ns st).st.instances
  | [], _, hst => ⟨fun _ => MarkerBalanced.nil, hst⟩
  | n :: rest, st, hst => by
    have h1 := handleNode_good rv env ctx n st hrv henv hcr hvals hst
    simp only [walkNodes]
    cases hf : (handleNode rv env ctx n st).fault with
    | some f => exact ⟨fun h => by simp at h, h1.2⟩
    | none =>
      have h2 := walkNodes_good rv env ctx hrv henv hcr hvals rest
        (handleNode rv env ctx n st).st h1.2
      exact ⟨fun h => (h1.1 hf).append (h2.1 h), h2.2⟩

theorem topLoopGo_good (rv : Value → List InstEntry → ValRes) (env : Env)
    (ctx : WalkCtx) (hrv : RVGood rv) (henv : BalancedEnv env)
    (hcr : BalancedCR ctx.cr) (hvals : balancedValues ctx.values = true) :
    ∀ (ns : NodeList) (st : WalkSt), BalancedStack st.instances →
      ((topLoopGo rv env ctx ns st).fault = none →
        MarkerBalanced (topLoopGo rv env ctx ns st).chunks)
      ∧ BalancedStack (topLoopGo rv env ctx ns st).st.instances
  | .nil, _, hst => ⟨fun _ => MarkerBalanced.nil, hst⟩
  | .cons node rest, st, hst => by
    cases hsl : ctx.flags.slot with
    | some slotName =>
      cases node with
      | comment d l =>
        simp only [topLoopGo, hsl, pushIfElement, popIfElement]
        have h2 := topLoopGo_good rv env ctx hrv henv hcr hvals rest st hst
        cases hf : (topLoopGo rv env ctx rest st).fault with
        | some f => exact ⟨fun h => by simp [hf] at h, h2.2⟩
        | none => exact ⟨fun _ => MarkerBalanced.nil.append (h2.1 hf), h2.2⟩
      | textN c l =>
        simp only [topLoopGo, hsl, pushIfElement, popIfElement]
        by_cases ht : slotName = (none : Option String)
        · rw [if_pos ht]
          have hw := walkNodes_good rv env ctx hrv henv hcr hvals
            (depthFirstN (.textN c l)) st hst
          cases hwf : (walkNodes rv env ctx (depthFirstN (.textN c l)) st).fault with
          | some f => exact ⟨fun h => by simp at h, hw.2⟩
          | none =>
            have h2 := topLoopGo_good rv env ctx hrv henv hcr hvals rest
              (walkNodes rv env ctx (depthFirstN (.textN c l)) st).st hw.2
            cases hf : (topLoopGo rv env ctx rest
                (walkNodes rv env ctx (depthFirstN (.textN c l)) st).st).fault with
            | some f => exact ⟨fun h => by simp [hf] at h, h2.2⟩
            | none => exact ⟨fun _ => (hw.1 hwf).append (h2.1 hf), h2.2⟩
        · rw [if_neg ht]
          have h2 := topLoopGo_good rv env ctx hrv henv hcr hvals rest st hst
          cases hf : (topLoopGo rv env ctx rest st).fault with
          | some f => exact ⟨fun h => by simp [hf] at h, h2.2⟩
          | none => exact ⟨fun _ => MarkerBalanced.nil.append (h2.1 hf), h2.2⟩
      | element t a lo cs =>
        simp only [topLoopGo, hsl, pushIfElement, popIfElement]
        have hst1 : BalancedStack ((⟨t, none⟩ : InstEntry) :: st.instances) :=
          balancedStack_cons_none t hst
        by_cases hm : getAttrN a "slot" = slotName
        · rw [if_pos hm]
          have hw := walkNodes_good rv env ctx hrv henv hcr hvals
            (depthFirstN (.element t a lo cs))
            { st with
                instances := (⟨t, none⟩ : InstEntry) :: st.instances,
                lastOffset := some lo.startOffset } hst1
          cases hwf : (walkNodes rv env ctx (depthFirstN (.element t a lo cs))
              { st with
                  instances := (⟨t, none⟩ : InstEntry) :: st.instances,
                  lastOffset := some lo.startOffset }).fault with
          | some f => exact ⟨fun h => by simp at h, hw.2⟩
          | none =>
            cases hwo : (walkNodes rv env ctx (depthFirstN (.element t a lo cs))
                { st with
                    instances := (⟨t, none⟩ : InstEntry) :: st.instances,
                    lastOffset := some lo.startOffset }).st.lastOffset with
            | none =>
              simp only [flushToC, hwo]
              exact ⟨fun h => by simp at h, hw.2⟩
            | some prev =>
              simp only [flushToC, hwo]
              have h2 := topLoopGo_good rv env ctx hrv henv hcr hvals rest
                { (walkNodes rv env ctx (depthFirstN (.element t a lo cs))
                    { st with
                        instances := (⟨t, none⟩ : InstEntry) :: st.instances,
                        lastOffset := some lo.startOffset }).st with
                    lastOffset := some lo.endOffset,
                    instances := (walkNodes rv env ctx (depthFirstN (.element t a lo cs))
                      { st with
                          instances := (⟨t, none⟩ : InstEntry) :: st.instances,
                          lastOffset := some lo.startOffset }).st.instances.tail }
                (balancedStack_tail hw.2)
              cases hf : (topLoopGo rv env ctx rest
                  { (walkNodes rv env ctx (depthFirstN (.element t a lo cs))
                      { st with
                          instances := (⟨t, none⟩ : InstEntry) :: st.instances,
                          lastOffset := some lo.startOffset }).st with
                      lastOffset := some lo.endOffset,
                      instances := (walkNodes rv env ctx (depthFirstN (.element t a lo cs))
                        { st with
                            instances := (⟨t, none⟩ : InstEntry) :: st.instances,
                            lastOffset := some lo.startOffset }).st.instances.tail }).fault with
              | some f => exact ⟨fun h => by simp [hf] at h, h2.2⟩
              | none =>
                exact ⟨fun _ => ((hw.1 hwf).append
                  (MarkerBalanced.textCons _ MarkerBalanced.nil)).append (h2.1 hf), h2.2⟩
        · rw [if_neg hm]
          have h2 := topLoopGo_good rv env ctx hrv henv hcr hvals rest
            { st with
                lastOffset := some lo.endOffset,
                instances := ((⟨t, none⟩ : InstEntry) :: st.instances).tail }
            (balancedStack_tail hst1)
          cases hf : (topLoopGo rv env ctx rest
              { st with
                  lastOffset := some lo.endOffset,
                  instances := ((⟨t, none⟩ : InstEntry) :: st.instances).tail }).fault with
          | some f => exact ⟨fun h => by simp [hf] at h, h2.2⟩
          | none => exact ⟨fun _ => MarkerBalanced.nil.append (h2.1 hf), h2.2⟩
    | none =>
      cases node with
      | comment d l =>
        simp only [topLoopGo, hsl, pushIfElement, popIfElement, traverseN]
        have hw := walkNodes_good rv env ctx hrv henv hcr hvals
          (depthFirstN (.comment d l)) st hst
        cases hwf : (walkNodes rv env ctx (depthFirstN (.comment d l)) st).fault with
        | some f => exact ⟨fun h => by simp at h, hw.2⟩
        | none =>
          have h2 := topLoopGo_good rv env ctx hrv henv hcr hvals rest
            (walkNodes rv env ctx (depthFirstN (.comment d l)) st).st hw.2
          cases hf : (topLoopGo rv env ctx rest
              (walkNodes rv env ctx (depthFirstN (.comment d l)) st).st).fault with
          | some f => exact ⟨fun h => by simp [hf] at h, h2.2⟩
          | none => exact ⟨fun _ => (hw.1 hwf).append (h2.1 hf), h2.2⟩
      | textN c l =>
        simp only [topLoopGo, hsl, pushIfElement, popIfElement, traverseN]
        have hw := walkNodes_good rv env ctx hrv henv hcr hvals
          (depthFirstN (.textN c l)) st hst
        cases hwf : (walkNodes rv env ctx (depthFirstN (.textN c l)) st).fault with
        | some f => exact ⟨fun h => by simp at h, hw.2⟩
        | none =>
          have h2 := topLoopGo_good rv env ctx hrv henv hcr hvals rest
            (walkNodes rv env ctx (depthFirstN (.textN c l)) st).st hw.2
          cases hf : (topLoopGo rv env ctx rest
              (walkNodes rv env ctx (depthFirstN (.textN c l)) st).st).fault with
          | some f => exact ⟨fun h => by simp [hf] at h, h2.2⟩
          | none => exact ⟨fun _ => (hw.1 hwf).append (h2.1 hf), h2.2⟩
      | element t a lo cs =>
        simp only [topLoopGo, hsl, pushIfElement, popIfElement]
        rw [traverseN_id]
        have hst1 : BalancedStack ((⟨t, none⟩ : InstEntry) :: st.instances) :=
          balancedStack_cons_none t hst
        have hw := walkNodes_good rv env ctx hrv henv hcr hvals
          (depthFirstN (.element t a lo cs))
          { st with instances := (⟨t, none⟩ : InstEntry) :: st.instances } hst1
        cases hwf : (walkNodes rv env ctx (depthFirstN (.element t a lo cs))
            { st with instances := (⟨t, none⟩ : InstEntry) :: st.instances }).fault with
        | some f => exact ⟨fun h => by simp at h, hw.2⟩
        | none =>
          have h2 := topLoopGo_good rv env ctx hrv henv hcr hvals rest
            { (walkNodes rv env ctx (depthFirstN (.element t a lo cs))
                { st with instances := (⟨t, none⟩ : InstEntry) :: st.instances }).st with
                instances := (walkNodes rv env ctx (depthFirstN (.element t a lo cs))
                  { st with
                      instances :=
                        (⟨t, none⟩ : InstEntry) :: st.instances }).st.instances.tail }
            (balancedStack_tail hw.2)
          cases hf : (topLoopGo rv env ctx rest
              { (walkNodes rv env ctx (depthFirstN (.element t a lo cs))
                  { st with instances := (⟨t, none⟩ : InstEntry) :: st.instances }).st with
                  instances := (walkNodes rv env ctx (depthFirstN (.element t a lo cs))
                    { st with
                        instances :=
                          (⟨t, none⟩ : InstEntry) :: st.instances }).st.instances.tail }).fault with
          | some f => exact ⟨fun h => by simp [hf] at h, h2.2⟩
          | none => exact ⟨fun _ => (hw.1 hwf).append (h2.1 hf), h2.2⟩



theorem renderTemplateResultGo_good (rv : Value → List InstEntry → ValRes)
    (env : Env) (td : TemplateData) (cr : Option ChildRenderer)
    (claimed : List Nat) (flags : Flags) (inst : List InstEntry)
    (hrv : RVGood rv) (henv : BalancedEnv env) (hcr : BalancedCR cr)
    (hvals : balancedValues td.values = true) (hst : BalancedStack inst) :
    ((renderTemplateResultGo rv env td cr claimed flags inst).fault = none →
      MarkerBalanced (renderTemplateResultGo rv env td cr claimed flags inst).chunks)
    ∧ BalancedStack (renderTemplateResultGo rv env td cr claimed flags inst).instances := by
  cases hn : td.childNodes with
  | none =>
    simp only [renderTemplateResultGo, hn]
    exact ⟨fun _ => MarkerBalanced.nil, hst⟩
  | some nodes =>
    simp only [renderTemplateResultGo, hn]
    have htop := topLoopGo_good rv env ⟨td.html, td.strings, td.values, claimed, flags, cr⟩
      hrv henv hcr hvals nodes ⟨some 0, 0, -1, inst, []⟩ hst
    cases hf : (topLoopGo rv env ⟨td.html, td.strings, td.values, claimed, flags, cr⟩
        nodes ⟨some 0, 0, -1, inst, []⟩).fault with
    | some f => exact ⟨fun h => by simp at h, htop.2⟩
    | none =>
      cases ho : (topLoopGo rv env ⟨td.html, td.strings, td.values, claimed, flags, cr⟩
          nodes ⟨some 0, 0, -1, inst, []⟩).st.lastOffset with
      | none =>
        simp only [flushToC, ho]
        exact ⟨fun h => by simp at h, htop.2⟩
      | some off =>
        simp only [flushToC, ho]
        split
        · exact ⟨fun _ => (htop.1 hf).append
            (MarkerBalanced.textCons _ MarkerBalanced.nil), htop.2⟩
        · exact ⟨fun h => by simp at h, htop.2⟩

theorem dispatchList_good (rv : Value → List InstEntry → ValRes)
    (hrv : RVGood rv) : ∀ (items : ValueList) (inst : List InstEntry),
    balancedValues items = true → BalancedStack inst →
    (((dispatchList rv items inst).fault = none →
      MarkerBalanced (dispatchList rv items inst).chunks)
    ∧ BalancedStack (dispatchList rv items inst).instances)
  | .nil, _, _, hst => ⟨fun _ => MarkerBalanced.nil, hst⟩
  | .cons v vs, inst, hv, hst => by
    simp only [balancedValues, Bool.and_eq_true] at hv
    have h1 := hrv v inst hv.1 hst
    simp only [dispatchList]
    cases hf : (rv v inst).fault with
    | some f => exact ⟨fun h => by simp at h, h1.2⟩
    | none =>
      have h2 := dispatchList_good rv hrv vs (rv v inst).instances hv.2 h1.2
      cases hf2 : (dispatchList rv vs (rv v inst).instances).fault with
      | some f => exact ⟨fun h => by simp [hf2] at h, h2.2⟩
      | none => exact ⟨fun _ => (h1.1 hf).append (h2.1 hf2), h2.2⟩

theorem renderValueF_good : ∀ (n : Nat) (env : Env) (cr : Option ChildRenderer)
    (flags : Flags), BalancedEnv env → BalancedCR cr →
    RVGood (fun v i => renderValueF n env cr flags v i)
  | 0, env, cr, flags, _, _ => by
    intro v inst _ hst
    exact ⟨fun h => by simp [renderValueF] at h, hst⟩
  | n + 1, env, cr, flags, henv, hcr => by
    have IH := renderValueF_good n env cr flags henv hcr
    intro v inst hv hst
    cases v with
    | template dg h cn strs vals =>
      have hvals : balancedValues vals = true := by
        simpa [balancedValue] using hv
      have hgo := renderTemplateResultGo_good
        (fun v i => renderValueF n env cr flags v i) env
        ⟨h, cn, strs, vals⟩ cr [] flags inst IH henv hcr hvals hst
      simp only [renderValueF]
      cases hf : (renderTemplateResultGo (fun v i => renderValueF n env cr flags v i)
          env ⟨h, cn, strs, vals⟩ cr [] flags inst).fault with
      | some f => exact ⟨fun hh => by simp at hh, hgo.2⟩
      | none =>
        exact ⟨fun _ => MarkerBalanced.bracket _ (hgo.1 hf), hgo.2⟩
    | undef =>
      exact ⟨fun _ => MarkerBalanced.pair none, hst⟩
    | nul =>
      exact ⟨fun _ => MarkerBalanced.pair none, hst⟩
    | nothingV =>
      exact ⟨fun _ => MarkerBalanced.pair none, hst⟩
    | repeatD cs =>
      have hcs : MarkerBalanced cs := by
        have := hv
        simp only [balancedValue] at this
        exact of_decide_eq_true this
      exact ⟨fun _ => MarkerBalanced.bracket none hcs, hst⟩
    | renderLight =>
      cases inst with
      | nil =>
        simp only [renderValueF]
        exact ⟨fun h => by simp at h, balancedStack_nil⟩
      | cons entry rest =>
        obtain ⟨tg, io⟩ := entry
        cases io with
        | none => exact ⟨fun _ => MarkerBalanced.pair none, hst⟩
        | some i =>
          have hok : InstanceOk i :=
            hst ⟨tg, some i⟩ (List.mem_cons_self _ _) i rfl
          have hrec := IH i.lightResult ((⟨tg, some i⟩ : InstEntry) :: rest) hok.2 hst
          simp only [renderValueF]
          cases hf : (renderValueF n env cr flags i.lightResult
              ((⟨tg, some i⟩ : InstEntry) :: rest)).fault with
          | some f => exact ⟨fun hh => by simp [hf] at hh, hrec.2⟩
          | none =>
            exact ⟨fun _ => MarkerBalanced.bracket none (hrec.1 hf), hrec.2⟩
    | arr items =>
      have hvals : balancedValues items = true := by
        simpa [balancedValue] using hv
      have hd := dispatchList_good (fun v i => renderValueF n env cr flags v i)
        IH items inst hvals hst
      simp only [renderValueF]
      cases hf : (dispatchList (fun v i => renderValueF n env cr flags v i)
          items inst).fault with
      | some f => exact ⟨fun hh => by simp [hf] at hh, hd.2⟩
      | none =>
        exact ⟨fun _ => MarkerBalanced.bracket none (hd.1 hf), hd.2⟩
    | classMap s =>
      exact ⟨fun _ => MarkerBalanced.bracket none
        (MarkerBalanced.textCons _ MarkerBalanced.nil), hst⟩
    | prim s =>
      exact ⟨fun _ => MarkerBalanced.bracket none
        (MarkerBalanced.textCons _ MarkerBalanced.nil), hst⟩

theorem renderValueF_bracket (n : Nat) (env : Env) (cr : Option ChildRenderer)
    (flags : Flags) (v : Value) (inst : List InstEntry)
    (hok : (renderValueF n env cr flags v inst).fault = none) :
    ∃ mid, (renderValueF n env cr flags v inst).chunks
      = .openPart (templateDigest v) :: (mid ++ [.closePart]) := by
  cases n with
  | zero => simp [renderValueF] at hok
  | succ n =>
    cases v with
    | template dg h cn strs vals =>
      simp only [renderValueF] at hok ⊢
      cases hf : (renderTemplateResultGo (fun v i => renderValueF n env cr flags v i)
          env ⟨h, cn, strs, vals⟩ cr [] flags inst).fault with
      | some f => rw [hf] at hok; simp at hok
      | none => exact ⟨_, rfl⟩
    | undef => exact ⟨[], rfl⟩
    | nul => exact ⟨[], rfl⟩
    | nothingV => exact ⟨[], rfl⟩
    | repeatD cs => exact ⟨cs, rfl⟩
    | renderLight =>
      cases inst with
      | nil => simp [renderValueF] at hok
      | cons entry rest =>
        obtain ⟨tg, io⟩ := entry
        cases io with
        | none => exact ⟨[], rfl⟩
        | some i =>
          simp only [renderValueF] at hok ⊢
          cases hf : (renderValueF n env cr flags i.lightResult
              ((⟨tg, some i⟩ : InstEntry) :: rest)).fault with
          | some f => rw [hf] at hok; simp at hok
          | none => exact ⟨_, rfl⟩
    | arr items =>
      simp only [renderValueF] at hok ⊢
      cases hf : (dispatchList (fun v i => renderValueF n env cr flags v i)
          items inst).fault with
      | some f => rw [hf] at hok; simp at hok
      | none => exact ⟨_, rfl⟩
    | classMap s => exact ⟨_, rfl⟩
    | prim s => exact ⟨_, rfl⟩



theorem dispatchList_decomp (rv : Value → List InstEntry → ValRes)
    (hbr : ∀ v i, (rv v i).fault = none →
      ∃ mid, (rv v i).chunks = .openPart (templateDigest v) :: (mid ++ [.closePart])) :
    ∀ (items : ValueList) (inst : List InstEntry),
      (dispatchList rv items inst).fault = none →
      ∃ parts : List (List Chunk),
        (dispatchList rv items inst).chunks = parts.flatten
        ∧ parts.length = items.length
        ∧ ∀ p ∈ parts, ∃ dg mid, p = Chunk.openPart dg :: (mid ++ [.closePart])
  | .nil, _, _ => ⟨[], rfl, rfl, by simp⟩
  | .cons v vs, inst, hok => by
    simp only [dispatchList] at hok ⊢
    cases hf : (rv v inst).fault with
    | some f => rw [hf] at hok; simp at hok
    | none =>
      rw [hf] at hok
      obtain ⟨parts, hp1, hp2, hp3⟩ :=
        dispatchList_decomp rv hbr vs (rv v inst).instances hok
      obtain ⟨mid, hmid⟩ := hbr v inst hf
      refine ⟨(rv v inst).chunks :: parts, ?_, ?_, ?_⟩
      · simp [hp1]
      · simp [hp2, ValueList.length, Nat.add_comm]
      · intro p hp
        rcases List.mem_cons.mp hp with rfl | hmem
        · exact ⟨templateDigest v, mid, hmid⟩
        · exact hp3 p hmem

/-- C2: for every input value (with marker-balanced external collaborator
streams) whose dispatch runs to completion, the chunk sequence begins with
an opening marker comment carrying the template's digest exactly when the
value is a `TemplateResult` (bare otherwise), ends with the matching
closing marker comment, and over the whole render the opening and closing
bracket markers are equal in number and stack-balanced, regardless of value
kind. -/
theorem c2_bracketed_balanced (n : Nat) (env : Env) (cr : Option ChildRenderer)
    (flags : Flags) (v : Value) (inst : List InstEntry)
    (henv : BalancedEnv env) (hcr : BalancedCR cr)
    (hv : balancedValue v = true) (hst : BalancedStack inst)
    (hok : (renderValueF n env cr flags v inst).fault = none) :
    (∃ mid, (renderValueF n env cr flags v inst).chunks
       = .openPart (templateDigest v) :: (mid ++ [.closePart]))
    ∧ MarkerBalanced (renderValueF n env cr flags v inst).chunks :=
  ⟨renderValueF_bracket n env cr flags v inst hok,
   (renderValueF_good n env cr flags henv hcr v inst hv hst).1 hok⟩

/-- C2 witness: a one-value template dispatched at fuel 3 is bracketed and
balanced. -/
theorem c2_bracketed_balanced_witness :
    (BalancedEnv emptyEnv ∧ BalancedCR none
      ∧ balancedValue (.template "dg" "<p><!--m--></p>"
          (some (.cons (.element "p" [] ⟨0, 15, 0, 3⟩
            (.cons (.comment markerData ⟨3, 11⟩) .nil)) .nil))
          [] (.cons (.prim "x") .nil)) = true
      ∧ BalancedStack ([] : List InstEntry)
      ∧ (renderValueF 3 emptyEnv none ⟨none, false⟩
          (.template "dg" "<p><!--m--></p>"
            (some (.cons (.element "p" [] ⟨0, 15, 0, 3⟩
              (.cons (.comment markerData ⟨3, 11⟩) .nil)) .nil))
            [] (.cons (.prim "x") .nil)) []).fault = none)
    ∧ ((∃ mid, (renderValueF 3 emptyEnv none ⟨none, false⟩
          (.template "dg" "<p><!--m--></p>"
            (some (.cons (.element "p" [] ⟨0, 15, 0, 3⟩
              (.cons (.comment markerData ⟨3, 11⟩) .nil)) .nil))
            [] (.cons (.prim "x") .nil)) []).chunks
        = .openPart (templateDigest (.template "dg" "<p><!--m--></p>"
            (some (.cons (.element "p" [] ⟨0, 15, 0, 3⟩
              (.cons (.comment markerData ⟨3, 11⟩) .nil)) .nil))
            [] (.cons (.prim "x") .nil))) :: (mid ++ [.closePart]))
      ∧ MarkerBalanced (renderValueF 3 emptyEnv none ⟨none, false⟩
          (.template "dg" "<p><!--m--></p>"
            (some (.cons (.element "p" [] ⟨0, 15, 0, 3⟩
              (.cons (.comment markerData ⟨3, 11⟩) .nil)) .nil))
            [] (.cons (.prim "x") .nil)) []).chunks) := by
  have henv : BalancedEnv emptyEnv := by
    intro tag ce i h
    simp [emptyEnv] at h
  have hcr : BalancedCR (none : Option ChildRenderer) := by
    intro r s h
    simp at h
  refine ⟨⟨henv, hcr, by decide, balancedStack_nil, by decide⟩, ?_⟩
  exact c2_bracketed_balanced 3 emptyEnv none ⟨none, false⟩ _ [] henv hcr
    (by decide) balancedStack_nil (by decide)

/-- C6, amended: when `renderValue` receives an array, each element is
dispatched independently in array order and each element's output is
wrapped in its own bracketing marker pair; in addition, the array as a
whole is wrapped in one shared bare bracket pair, emitted by `renderValue`
before it inspects the value's kind (like every non-template value). -/
theorem c6_array_brackets (n : Nat) (env : Env) (cr : Option ChildRenderer)
    (flags : Flags) (items : ValueList) (inst : List InstEntry)
    (hok : (renderValueF (n + 1) env cr flags (.arr items) inst).fault = none) :
    ∃ parts : List (List Chunk),
      (renderValueF (n + 1) env cr flags (.arr items) inst).chunks
        = .openPart none :: (parts.flatten ++ [.closePart])
      ∧ parts.length = items.length
      ∧ ∀ p ∈ parts, ∃ dg mid, p = Chunk.openPart dg :: (mid ++ [.closePart]) := by
  cases hf : (dispatchList (fun v' i' => renderValueF n env cr flags v' i')
      items inst).fault with
  | some f =>
    exfalso
    simp only [renderValueF, hf] at hok
    exact Option.noConfusion hok
  | none =>
    obtain ⟨parts, hp1, hp2, hp3⟩ := dispatchList_decomp
      (fun v' i' => renderValueF n env cr flags v' i')
      (fun v i h => renderValueF_bracket n env cr flags v i h) items inst hf
    refine ⟨parts, ?_, hp2, hp3⟩
    simp only [renderValueF, hf, hp1, List.cons_append]

/-- C6 witness: a two-element array at fuel 3. -/
theorem c6_array_brackets_witness :
    ((renderValueF 3 emptyEnv none ⟨none, false⟩
        (.arr (.cons (.prim "a") (.cons (.prim "b") .nil))) []).fault = none)
    ∧ ∃ parts : List (List Chunk),
      (renderValueF 3 emptyEnv none ⟨none, false⟩
          (.arr (.cons (.prim "a") (.cons (.prim "b") .nil))) []).chunks
        = .openPart none :: (parts.flatten ++ [.closePart])
      ∧ parts.length = (ValueList.cons (.prim "a") (.cons (.prim "b") .nil)).length
      ∧ ∀ p ∈ parts, ∃ dg mid, p = Chunk.openPart dg :: (mid ++ [.closePart]) :=
  ⟨by decide,
   c6_array_brackets 2 emptyEnv none ⟨none, false⟩
     (.cons (.prim "a") (.cons (.prim "b") .nil)) [] (by decide)⟩


end LitSsr
